import Mathlib

set_option maxRecDepth 100000

namespace AwsAuth

/-- 2^32, the modulus for 32-bit word arithmetic. -/
def M32 : Nat := 4294967296

/-- Addition modulo 2^32. -/
def wadd (a b : Nat) : Nat := (a + b) % M32

/-- Right rotation of a 32-bit word by `n`. -/
def rotr (n x : Nat) : Nat := ((x >>> n) ||| (x <<< (32 - n))) % M32

/-- SHA-256 Ch function; complement is xor with 2^32-1. -/
def shaCh (x y z : Nat) : Nat := (x &&& y) ^^^ ((x ^^^ 4294967295) &&& z)

/-- SHA-256 Maj function. -/
def shaMaj (x y z : Nat) : Nat := (x &&& y) ^^^ (x &&& z) ^^^ (y &&& z)

def bsig0 (x : Nat) : Nat := rotr 2 x ^^^ rotr 13 x ^^^ rotr 22 x
def bsig1 (x : Nat) : Nat := rotr 6 x ^^^ rotr 11 x ^^^ rotr 25 x
def ssig0 (x : Nat) : Nat := rotr 7 x ^^^ rotr 18 x ^^^ (x >>> 3)
def ssig1 (x : Nat) : Nat := rotr 17 x ^^^ rotr 19 x ^^^ (x >>> 10)

/-- The 64 SHA-256 round constants. -/
def KC : List Nat :=
  [1116352408, 1899447441, 3049323471, 3921009573, 961987163, 1508970993, 2453635748, 2870763221,
   3624381080, 310598401, 607225278, 1426881987, 1925078388, 2162078206, 2614888103, 3248222580,
   3835390401, 4022224774, 264347078, 604807628, 770255983, 1249150122, 1555081692, 1996064986,
   2554220882, 2821834349, 2952996808, 3210313671, 3336571891, 3584528711, 113926993, 338241895,
   666307205, 773529912, 1294757372, 1396182291, 1695183700, 1986661051, 2177026350, 2456956037,
   2730485921, 2820302411, 3259730800, 3345764771, 3516065817, 3600352804, 4094571909, 275423344,
   430227734, 506948616, 659060556, 883997877, 958139571, 1322822218, 1537002063, 1747873779,
   1955562222, 2024104815, 2227730452, 2361852424, 2428436474, 2756734187, 3204031479, 3329325298]

/-- Big-endian serialization of `n` into `len` bytes. -/
def natToBytesBE (len n : Nat) : List Nat :=
  (List.range len).map (fun i => (n >>> (8 * (len - 1 - i))) % 256)

/-- Group bytes into 32-bit big-endian words. -/
def bytesToWordsBE : List Nat → List Nat
  | b0 :: b1 :: b2 :: b3 :: rest => (((b0 * 256 + b1) * 256 + b2) * 256 + b3) :: bytesToWordsBE rest
  | _ => []

/-- The eight-word SHA-256 state. -/
structure H8 where
  a : Nat
  b : Nat
  c : Nat
  d : Nat
  e : Nat
  f : Nat
  g : Nat
  h : Nat

/-- Sliding 16-word window over the SHA-256 message schedule. -/
structure W16 where
  w0 : Nat
  w1 : Nat
  w2 : Nat
  w3 : Nat
  w4 : Nat
  w5 : Nat
  w6 : Nat
  w7 : Nat
  w8 : Nat
  w9 : Nat
  w10 : Nat
  w11 : Nat
  w12 : Nat
  w13 : Nat
  w14 : Nat
  w15 : Nat

/-- Shift the schedule window, appending the next extended word. -/
def wShift (w : W16) : W16 :=
  ⟨w.w1, w.w2, w.w3, w.w4, w.w5, w.w6, w.w7, w.w8, w.w9, w.w10, w.w11, w.w12, w.w13, w.w14, w.w15,
   (w.w0 + ssig0 w.w1 + w.w9 + ssig1 w.w14) % M32⟩

/-- SHA-256 initial state. -/
def shaInit : H8 :=
  ⟨1779033703, 3144134277, 1013904242, 2773480762, 1359893119, 2600822924, 528734635, 1541459225⟩

/-- One SHA-256 round with the current schedule word `w.w0`, then window shift. -/
def roundStep (sw : H8 × W16) (k : Nat) : H8 × W16 :=
  let st := sw.1
  let w := sw.2
  let t1 := (st.h + bsig1 st.e + shaCh st.e st.f st.g + k + w.w0) % M32
  let t2 := (bsig0 st.a + shaMaj st.a st.b st.c) % M32
  (⟨(t1 + t2) % M32, st.a, st.b, st.c, (st.d + t1) % M32, st.e, st.f, st.g⟩, wShift w)

/-- Build the initial schedule window from a 64-byte block. -/
def windowOf (block : List Nat) : W16 :=
  match bytesToWordsBE block with
  | [a0, a1, a2, a3, a4, a5, a6, a7, a8, a9, a10, a11, a12, a13, a14, a15] =>
    ⟨a0, a1, a2, a3, a4, a5, a6, a7, a8, a9, a10, a11, a12, a13, a14, a15⟩
  | _ => ⟨0, 0, 0, 0, 0, 0, 0, 0, 0, 0, 0, 0, 0, 0, 0, 0⟩

/-- SHA-256 compression of one 64-byte block. -/
def compress (st : H8) (block : List Nat) : H8 :=
  let r := (KC.foldl roundStep (st, windowOf block)).1
  ⟨wadd st.a r.a, wadd st.b r.b, wadd st.c r.c, wadd st.d r.d,
   wadd st.e r.e, wadd st.f r.f, wadd st.g r.g, wadd st.h r.h⟩

/-- SHA-256 padding: 128, zeros to 56 mod 64, 8-byte big-endian bit length. -/
def padMessage (msg : List Nat) : List Nat :=
  let L := msg.length
  let k := (64 + 56 - ((L + 1) % 64)) % 64
  msg ++ [128] ++ List.replicate k 0 ++ natToBytesBE 8 (L * 8)

/-- Split into 64-byte chunks, fuel-driven for structural recursion. -/
def chunks64 : Nat → List Nat → List (List Nat)
  | 0, _ => []
  | _, [] => []
  | fuel + 1, l => l.take 64 :: chunks64 fuel (l.drop 64)

/-- SHA-256 digest (32 bytes) of a byte list. -/
def sha256Bytes (msg : List Nat) : List Nat :=
  let padded := padMessage msg
  let st := (chunks64 padded.length padded).foldl compress shaInit
  natToBytesBE 4 st.a ++ natToBytesBE 4 st.b ++ natToBytesBE 4 st.c ++ natToBytesBE 4 st.d ++
  natToBytesBE 4 st.e ++ natToBytesBE 4 st.f ++ natToBytesBE 4 st.g ++ natToBytesBE 4 st.h

def hexChars : List Char := "0123456789abcdef".toList

def byteToHex (b : Nat) : List Char := [hexChars.getD (b / 16 % 16) '0', hexChars.getD (b % 16) '0']

/-- Lowercase hex rendering of a byte list. -/
def bytesToHex (bs : List Nat) : String := ⟨(bs.map byteToHex).flatten⟩

def sha256Hex (msg : List Nat) : String := bytesToHex (sha256Bytes msg)

/-- HMAC-SHA256 with byte-list key and message. -/
def hmacSha256 (key msg : List Nat) : List Nat :=
  let k0 := if key.length > 64 then sha256Bytes key else key
  let kp := k0 ++ List.replicate (64 - k0.length) 0
  sha256Bytes ((kp.map (fun b => b ^^^ 92)) ++ sha256Bytes ((kp.map (fun b => b ^^^ 54)) ++ msg))

/-- UTF-8 encoding of one character. -/
def utf8Char (c : Char) : List Nat :=
  let n := c.toNat
  if n < 128 then [n]
  else if n < 2048 then [192 + n / 64, 128 + n % 64]
  else if n < 65536 then [224 + n / 4096, 128 + n / 64 % 64, 128 + n % 64]
  else [240 + n / 262144, 128 + n / 4096 % 64, 128 + n / 64 % 64, 128 + n % 64]

/-- UTF-8 encoding of a string. -/
def utf8 (s : String) : List Nat := (s.toList.map utf8Char).flatten

/-- RFC 6229-style sanity vector: SHA-256 of the empty byte string. -/
theorem sha256_vector_empty :
    sha256Hex (utf8 "") = "e3b0c44298fc1c149afbf4c8996fb92427ae41e4649b934ca495991b7852b855" := by
  decide

/-- FIPS 180-4 test vector: SHA-256 of "abc". -/
theorem sha256_vector_abc :
    sha256Hex (utf8 "abc") = "ba7816bf8f01cfea414140de5dae2223b00361a396177a9cb410ff61f20015ad" := by
  decide

/-- RFC 4231 test case 2 for HMAC-SHA256. -/
theorem hmac_vector_rfc4231 :
    bytesToHex (hmacSha256 (utf8 "Jefe") (utf8 "what do ya want for nothing?")) =
      "5bdcc146bf60754e6a042426089575c75a003f089d2739839dec58b964ec3843" := by
  decide

/-- ASCII lowering of one character by code point arithmetic. -/
def lowerChar (c : Char) : Char :=
  if h : 65 ≤ c.toNat ∧ c.toNat ≤ 90 then
    ⟨⟨⟨c.toNat + 32, by omega⟩⟩, Or.inl (by show c.toNat + 32 < 55296; omega)⟩
  else c

/-- ASCII lowering of a string, matching Python str.lower on the ASCII header names in play. -/
def lowerStr (s : String) : String := ⟨s.toList.map lowerChar⟩

/-- ASCII uppering of a string, matching Python str.upper for HTTP methods. -/
def upperStr (s : String) : String := ⟨s.toList.map Char.toUpper⟩

/-- The whitespace characters recognised by Python str.split with no separator. -/
def isPyWs (c : Char) : Bool := c = ' ' ∨ c = '\t' ∨ c = '\n' ∨ c = '\x0d' ∨ c = '\x0b' ∨ c = '\x0c'

/-- Python str.split with no separator: split on whitespace runs, dropping empties. -/
def splitWsAux : List Char → List Char → List (List Char)
  | [], [] => []
  | [], acc => [acc.reverse]
  | c :: cs, acc =>
    if isPyWs c then
      if acc = [] then splitWsAux cs [] else acc.reverse :: splitWsAux cs []
    else splitWsAux cs (c :: acc)

def splitWs (s : String) : List String := (splitWsAux s.toList []).map (fun l => (⟨l⟩ : String))

/-- Python str.strip with no argument. -/
def pyStrip (s : String) : String :=
  ⟨((s.toList.dropWhile isPyWs).reverse.dropWhile isPyWs).reverse⟩

/-- Python str.split(sep) for a single-character separator: empty input gives one empty piece. -/
def splitCharAux (sep : Char) : List Char → List Char → List (List Char)
  | [], acc => [acc.reverse]
  | c :: cs, acc =>
    if c = sep then acc.reverse :: splitCharAux sep cs [] else splitCharAux sep cs (c :: acc)

def splitChar (sep : Char) (cs : List Char) : List (List Char) := splitCharAux sep cs []

def splitCharStr (sep : Char) (s : String) : List String :=
  (splitChar sep s.toList).map (fun l => (⟨l⟩ : String))

/-- Split at the first occurrence of a character, separator removed; all input if absent.
Models both Python str.partition and str.split(sep, 1) as the signing code uses them. -/
def splitFirst (sep : Char) : List Char → List Char × List Char
  | [] => ([], [])
  | c :: cs =>
    if c = sep then ([], cs)
    else
      let r := splitFirst sep cs
      (c :: r.1, r.2)

/-- Whether the separator occurs at all (Python partition found the separator). -/
def containsChar (sep : Char) : List Char → Bool
  | [] => false
  | c :: cs => c = sep ∨ containsChar sep cs

/-- Split at the last occurrence of a character, keeping the part after it;
the whole input when absent.  Models Python str.rpartition usage for userinfo. -/
def afterLast (sep : Char) (cs : List Char) : List Char :=
  if containsChar sep cs then ((splitFirst sep cs.reverse).1).reverse else cs

/-- Take until one of the stop characters, returning (taken, rest-with-stop). -/
def takeUntilAny (stops : List Char) : List Char → List Char × List Char
  | [] => ([], [])
  | c :: cs =>
    if stops.contains c then ([], c :: cs)
    else
      let r := takeUntilAny stops cs
      (c :: r.1, r.2)

/-- Split at the first occurrence of a (nonempty) character pattern. -/
def splitSub (pat : List Char) : List Char → Option (List Char × List Char)
  | [] => Option.none
  | c :: cs =>
    if pat.isPrefixOf (c :: cs) then some ([], (c :: cs).drop pat.length)
    else
      match splitSub pat cs with
      | some (pre, post) => some (c :: pre, post)
      | Option.none => Option.none

/-- Decimal value of a digit run (callers ensure digits only). -/
def digitsVal (cs : List Char) : Nat := cs.foldl (fun a c => a * 10 + (c.toNat - 48)) 0

/-- Standard base64 alphabet. -/
def b64Alphabet : List Char :=
  "ABCDEFGHIJKLMNOPQRSTUVWXYZabcdefghijklmnopqrstuvwxyz0123456789+/".toList

def b64Char (n : Nat) : Char := b64Alphabet.getD n 'A'

/-- Base64 encoding of a byte list, mirroring Python base64.b64encode. -/
def b64encodeBytes : List Nat → List Char
  | [] => []
  | [b0] => [b64Char (b0 >>> 2), b64Char ((b0 % 4) * 16), '=', '=']
  | [b0, b1] => [b64Char (b0 >>> 2), b64Char ((b0 % 4) * 16 + (b1 >>> 4)), b64Char ((b1 % 16) * 4), '=']
  | b0 :: b1 :: b2 :: rest =>
    [b64Char (b0 >>> 2), b64Char ((b0 % 4) * 16 + (b1 >>> 4)),
     b64Char ((b1 % 16) * 4 + (b2 >>> 6)), b64Char (b2 % 64)] ++ b64encodeBytes rest

def b64encode (bs : List Nat) : String := ⟨b64encodeBytes bs⟩

/-- Bytes that urllib.parse.quote never encodes: ASCII alphanumerics and underscore,
dot, hyphen, tilde. -/
def alwaysSafeByte (b : Nat) : Bool :=
  (65 ≤ b ∧ b ≤ 90) ∨ (97 ≤ b ∧ b ≤ 122) ∨ (48 ≤ b ∧ b ≤ 57) ∨ b = 95 ∨ b = 46 ∨ b = 45 ∨ b = 126

def upperHexChars : List Char := "0123456789ABCDEF".toList

/-- Percent-escape of one byte with uppercase hex, as urllib.parse.quote emits. -/
def pctByte (b : Nat) : List Char := ['%', upperHexChars.getD (b / 16 % 16) '0', upperHexChars.getD (b % 16) '0']

def quoteSafeByte (safe : List Nat) (b : Nat) : Bool := alwaysSafeByte b ∨ safe.contains b

def pyQuoteBytes (safe : List Nat) : List Nat → List Char
  | [] => []
  | b :: bs => (if quoteSafeByte safe b then [Char.ofNat b] else pctByte b) ++ pyQuoteBytes safe bs

/-- Python urllib.parse.quote over the UTF-8 bytes of `s`, with extra safe characters `safe`
(restricted to ASCII as urllib does). -/
def pyQuote (s safe : String) : String := ⟨pyQuoteBytes ((utf8 safe).filter (fun b => b < 128)) (utf8 s)⟩

def hexDigitVal (c : Char) : Option Nat :=
  let l := Char.toLower c
  match hexChars.indexOf? l with
  | some i => some i
  | Option.none => Option.none

/-- Python urllib.parse.unquote restricted to ASCII results: valid %hh pairs decode to the
byte's character (bytes above 127 become the U+FFFD replacement, as errors=replace yields
for a lone high byte); malformed escapes pass through literally. -/
def pyUnquoteChars : List Char → List Char
  | '%' :: h1 :: h2 :: rest =>
    match hexDigitVal h1, hexDigitVal h2 with
    | some a, some b =>
      (if a * 16 + b < 128 then [Char.ofNat (a * 16 + b)] else ['�']) ++ pyUnquoteChars rest
    | _, _ => '%' :: pyUnquoteChars (h1 :: h2 :: rest)
  | c :: cs => c :: pyUnquoteChars cs
  | [] => []

def plusToSpace (cs : List Char) : List Char := cs.map (fun c => if c = '+' then ' ' else c)

/-- Python urllib.parse.parse_qsl with keep_blank_values=True: split the query on ampersands,
skip empty fragments, split each at the first equals sign (missing value becomes empty),
replace plus with space and percent-decode both sides. -/
def parse_qsl (qs : String) : List (String × String) :=
  (splitChar '&' qs.toList).filterMap fun nv =>
    if nv = [] then Option.none
    else
      let p := splitFirst '=' nv
      some (⟨pyUnquoteChars (plusToSpace p.1)⟩, ⟨pyUnquoteChars (plusToSpace p.2)⟩)

def qsInsert : List (String × List String) → String × String → List (String × List String)
  | [], kv => [(kv.1, [kv.2])]
  | (k0, vs) :: rest, kv =>
    if k0 = kv.1 then (k0, vs ++ [kv.2]) :: rest else (k0, vs) :: qsInsert rest kv

/-- Python urllib.parse.parse_qs with keep_blank_values=True, as an insertion-ordered
association of key to value list. -/
def parse_qs (qs : String) : List (String × List String) := (parse_qsl qs).foldl qsInsert []

/-- Lexicographic comparison of character lists by code point, matching Python string order. -/
def charListLe : List Char → List Char → Bool
  | [], _ => true
  | _ :: _, [] => false
  | a :: as', b :: bs' =>
    if a.toNat < b.toNat then true
    else if b.toNat < a.toNat then false
    else charListLe as' bs'

def strLeB (a b : String) : Bool := charListLe a.toList b.toList

/-- Python tuple comparison on string pairs: first component, tie-broken by the second. -/
def pairLeB (a b : String × String) : Bool :=
  if a.1 = b.1 then strLeB a.2 b.2 else strLeB a.1 b.1

def insLe {α : Type} (le : α → α → Bool) (x : α) : List α → List α
  | [] => [x]
  | y :: ys => if le x y then x :: y :: ys else y :: insLe le x ys

/-- Stable insertion sort, modelling Python sorted. -/
def sortLe {α : Type} (le : α → α → Bool) : List α → List α
  | [] => []
  | x :: xs => insLe le x (sortLe le xs)

/-- Python dict lookup on an insertion-ordered association list with unique keys. -/
def dGet (d : List (String × String)) (k : String) : Option String :=
  (d.find? (fun p => p.1 == k)).map (fun p => p.2)

def dContains (d : List (String × String)) (k : String) : Bool := d.any (fun p => p.1 == k)

/-- Python dict assignment: replace in place when present, else append. -/
def dSet (d : List (String × String)) (k v : String) : List (String × String) :=
  if d.any (fun p => p.1 == k) then d.map (fun p => if p.1 == k then (p.1, v) else p)
  else d ++ [(k, v)]

/-- Python dict.update. -/
def dUpdate (d e : List (String × String)) : List (String × String) :=
  e.foldl (fun acc kv => dSet acc kv.1 kv.2) d

/-- Python str.startswith over character lists (String.startsWith does not reduce in the
kernel). -/
def strStarts (s pre : String) : Bool := pre.toList.isPrefixOf s.toList

/-- The five components of urllib.parse.urlsplit. -/
structure UrlParts where
  scheme : String
  netloc : String
  path : String
  query : String
  fragment : String
deriving DecidableEq

/-- Python urllib.parse.urlsplit for the absolute http(s) URLs the signers handle:
scheme before "://" (lowercased), netloc up to slash/question/hash, fragment after the
first hash, query after the first question mark. -/
def urlsplit (url : String) : UrlParts :=
  match splitSub "://".toList url.toList with
  | some (sch, rest) =>
    let nl := takeUntilAny ['/', '?', '#'] rest
    let bf := splitFirst '#' nl.2
    let pq := splitFirst '?' bf.1
    ⟨lowerStr ⟨sch⟩, ⟨nl.1⟩, ⟨pq.1⟩, ⟨pq.2⟩, ⟨bf.2⟩⟩
  | Option.none =>
    let bf := splitFirst '#' url.toList
    let pq := splitFirst '?' bf.1
    ⟨"", "", ⟨pq.1⟩, ⟨pq.2⟩, ⟨bf.2⟩⟩

/-- Python urllib.parse.urlunsplit. -/
def urlunsplit (p : UrlParts) : String :=
  let u1 := if p.netloc ≠ "" ∨ strStarts p.path "//" then "//" ++ p.netloc ++ p.path else p.path
  let u2 := if p.scheme ≠ "" then p.scheme ++ ":" ++ u1 else u1
  let u3 := if p.query ≠ "" then u2 ++ "?" ++ p.query else u2
  if p.fragment ≠ "" then u3 ++ "#" ++ p.fragment else u3

/-- Hostname and port extraction from a netloc, mirroring SplitResult.hostname and .port:
drop userinfo at the last at-sign, unwrap an IPv6 bracket pair, lowercase the host, parse a
trailing decimal port. -/
def netlocHostPort (netloc : String) : String × Option Nat :=
  let hostinfo := afterLast '@' netloc.toList
  let hp :=
    if hostinfo.headD ' ' = '[' then
      let p := splitFirst ']' (hostinfo.drop 1)
      (p.1, (splitFirst ':' p.2).2)
    else splitFirst ':' hostinfo
  let port :=
    if hp.2 ≠ [] ∧ hp.2.all Char.isDigit ∧ digitsVal hp.2 ≤ 65535 then some (digitsVal hp.2)
    else Option.none
  (lowerStr ⟨hp.1⟩, port)

/-- Modelled from the spec: botocore.utils.is_valid_ipv6_endpoint_url is not under src;
the spec says IPv6 literals are the bracketed hosts, so detect a bracketed netloc. -/
def is_valid_ipv6_endpoint_url (url : String) : Bool :=
  (afterLast '@' (urlsplit url).netloc.toList).headD ' ' = '['

def default_ports (scheme : String) : Option Nat :=
  if scheme = "http" then some 80 else if scheme = "https" then some 443 else Option.none

/-- Derive the host-header value from a URL: lowercase hostname, brackets restored for IPv6
literals, port kept only when it differs from the scheme default, userinfo dropped. -/
def _host_from_url (url : String) : String :=
  let url_parts := urlsplit url
  let hp := netlocHostPort url_parts.netloc
  let host := if is_valid_ipv6_endpoint_url url then "[" ++ hp.1 ++ "]" else hp.1
  match hp.2 with
  | some port => if some port ≠ default_ports url_parts.scheme then host ++ ":" ++ toString port else host
  | Option.none => host

/-- Modelled from the spec: botocore.utils.remove_dot_segments is not under src; the spec
asks to resolve single and double dot segments and collapse duplicate slashes. -/
def removeDotSegments (p : String) : String :=
  let comps := splitChar '/' p.toList
  let out := comps.foldl
    (fun acc x =>
      if x = [] ∨ x = ['.'] then acc
      else if x = ['.', '.'] then acc.dropLast
      else acc ++ [x]) []
  let first := if strStarts p "/" then "/" else ""
  let last := if comps.getLast? = some ['.'] ∨ comps.getLast? = some ['.', '.'] then "/" else ""
  first ++ String.intercalate "/" (out.map (fun c => (⟨c⟩ : String))) ++ last

/-- Modelled from the spec: botocore.utils.normalize_url_path is not under src; empty paths
become a single slash, others get dot-segment resolution. -/
def normalize_url_path (path : String) : String :=
  if path = "" then "/" else removeDotSegments path

/-- Modelled from the spec: botocore.utils.percent_encode with its safe set of hyphen,
dot, underscore, tilde. -/
def percent_encode (s : String) : String := pyQuote s "-._~"

/-- Modelled from the spec: botocore.utils.percent_encode_sequence joins percent-encoded
key=value pairs with ampersands, in mapping order. -/
def percent_encode_sequence (kvs : List (String × String)) : String :=
  String.intercalate "&" (kvs.map (fun kv => percent_encode kv.1 ++ "=" ++ percent_encode kv.2))

/-- Gregorian leap-year test. -/
def isLeap (y : Nat) : Bool := y % 4 = 0 ∧ (y % 100 ≠ 0 ∨ y % 400 = 0)

def daysInMonth (y m : Nat) : Nat :=
  [31, if isLeap y then 29 else 28, 31, 30, 31, 30, 31, 31, 30, 31, 30, 31].getD (m - 1) 30

/-- Days from the Unix epoch to a civil date at or after 1970, as calendar.timegm uses. -/
def daysFromEpoch (y m d : Nat) : Nat :=
  (List.range (y - 1970)).foldl (fun acc i => acc + (if isLeap (1970 + i) then 366 else 365)) 0 +
    (List.range (m - 1)).foldl (fun acc i => acc + daysInMonth y (i + 1)) 0 + (d - 1)

/-- calendar.timegm of a UTC time tuple (1970 onward). -/
def timegm (y m d hh mm ss : Nat) : Nat :=
  daysFromEpoch y m d * 86400 + hh * 3600 + mm * 60 + ss

/-- Fixed-position parse of a SigV4 timestamp string YYYYMMDDTHHMMSSZ, as
datetime.strptime with the SIGV4_TIMESTAMP format reads it. -/
def strptimeSigv4 (ts : String) : Nat × Nat × Nat × Nat × Nat × Nat :=
  let l := ts.toList
  (digitsVal (l.take 4), digitsVal ((l.drop 4).take 2), digitsVal ((l.drop 6).take 2),
   digitsVal ((l.drop 9).take 2), digitsVal ((l.drop 11).take 2), digitsVal ((l.drop 13).take 2))

def findYear : Nat → Nat → Nat → Nat × Nat
  | 0, y, d => (y, d)
  | fuel + 1, y, d =>
    let yd := if isLeap y then 366 else 365
    if d < yd then (y, d) else findYear fuel (y + 1) (d - yd)

def findMonth (y : Nat) : Nat → Nat → Nat → Nat × Nat
  | 0, m, d => (m, d)
  | fuel + 1, m, d =>
    let md := daysInMonth y m
    if d < md then (m, d) else findMonth y fuel (m + 1) (d - md)

/-- time.gmtime of a nonnegative epoch value, as the UTC time tuple
(year, month, day, hour, minute, second, weekday with Monday zero). -/
def gmtimeOf (epoch : Nat) : Nat × Nat × Nat × Nat × Nat × Nat × Nat :=
  let days := epoch / 86400
  let rem := epoch % 86400
  let yd := findYear (days / 365 + 1) 1970 days
  let md := findMonth yd.1 12 1 yd.2
  (yd.1, md.1, md.2 + 1, rem / 3600, rem % 3600 / 60, rem % 60, (days + 3) % 7)

def pad2 (n : Nat) : String := (if n < 10 then "0" else "") ++ toString n

def dayNames : List String := ["Mon", "Tue", "Wed", "Thu", "Fri", "Sat", "Sun"]

def monthNames : List String :=
  ["Jan", "Feb", "Mar", "Apr", "May", "Jun", "Jul", "Aug", "Sep", "Oct", "Nov", "Dec"]

/-- email.utils.formatdate of a nonnegative epoch with default arguments: RFC 2822 date
with the -0000 zone indicator. -/
def formatdate (epoch : Nat) : String :=
  let t := gmtimeOf epoch
  dayNames.getD t.2.2.2.2.2.2 "Mon" ++ ", " ++ pad2 t.2.2.1 ++ " " ++
    monthNames.getD (t.2.1 - 1) "Jan" ++ " " ++ toString t.1 ++ " " ++
    pad2 t.2.2.2.1 ++ ":" ++ pad2 t.2.2.2.2.1 ++ ":" ++ pad2 t.2.2.2.2.2.1 ++ " -0000"

/-- The composite applied to the Date header by SigV4 signing: parse the fixed SigV4
context timestamp, convert through calendar.timegm, and render with formatdate. -/
def formatdateOfTimestamp (ts : String) : String :=
  let t := strptimeSigv4 ts
  formatdate (timegm t.1 t.2.1 t.2.2.1 t.2.2.2.1 t.2.2.2.2.1 t.2.2.2.2.2)

/-- Sanity vector: 20150830T123600Z was a Sunday. -/
theorem formatdate_vector :
    formatdateOfTimestamp "20150830T123600Z" = "Sun, 30 Aug 2015 12:36:00 -0000" := by decide

/-- Modelled from the spec: botocore.compat.HTTPHeaders is not under src; the spec defines
the container as a case-insensitive multimap preserving insertion order per name, where
assignment appends, deletion removes every value of a name, and lookup returns the first. -/
abbrev Headers := List (String × String)

def hHas (h : Headers) (n : String) : Bool := h.any (fun p => lowerStr p.1 == lowerStr n)

def hDel (h : Headers) (n : String) : Headers := h.filter (fun p => lowerStr p.1 != lowerStr n)

def hAdd (h : Headers) (n v : String) : Headers := h ++ [(n, v)]

def hGet (h : Headers) (n : String) : Option String :=
  (h.find? (fun p => lowerStr p.1 == lowerStr n)).map (fun p => p.2)

def hGetAll (h : Headers) (n : String) : List String :=
  (h.filter (fun p => lowerStr p.1 == lowerStr n)).map (fun p => p.2)

/-- The guarded delete idiom of the signers: `if name in headers: del headers[name]`. -/
def gDel (h : Headers) (n : String) : Headers := if hHas h n then hDel h n else h

/-- The replace idiom of the signers: guarded delete followed by assignment (append). -/
def gSet (h : Headers) (n v : String) : Headers := hAdd (gDel h n) n v

/-- AWS credentials: access key, secret key, optional session token. -/
structure Credentials where
  access_key : String
  secret_key : String
  token : Option String
deriving DecidableEq

/-- A seekable body stream: underlying bytes, current position, and an instrumentation
counter saying after how many further read calls the underlying stream raises
(none means reads never fail). -/
structure Reader where
  data : List Nat
  pos : Nat
  failAfter : Option Nat
deriving DecidableEq

/-- The request body as the payload hasher sees it: absent, plain bytes, or a seekable
reader object (which Python truthiness always treats as present). -/
inductive Body
  | absent
  | bytes (bs : List Nat)
  | reader (rd : Reader)
deriving DecidableEq

/-- Request data: either text (empty string models the cleared body) or a mapping, the two
shapes the signing code manipulates. -/
inductive ReqData
  | str (s : String)
  | dict (d : List (String × String))
deriving DecidableEq

/-- The context checksum request_algorithm entry: absent, a non-mapping value, or a mapping
with its `in` location field and algorithm header name. -/
inductive ChecksumAlgo
  | absent
  | other (s : String)
  | dict (algIn : Option String) (name : String)
deriving DecidableEq

/-- The s3 section of a client config, carrying the explicit payload-signing override. -/
structure S3Dict where
  payload_signing_enabled : Option Bool
deriving DecidableEq

/-- The client_config context entry; only its s3 attribute is read by the signers. -/
structure ClientConfig where
  s3 : Option S3Dict
deriving DecidableEq

/-- The request context keys the signing core reads and writes. -/
structure Context where
  timestamp : Option String
  payload_signing_enabled : Option Bool
  has_streaming_input : Option Bool
  checksum_request_algorithm : ChecksumAlgo
  client_config : Option ClientConfig
  s3_presign_post_fields : Option (List (String × String))
  s3_presign_post_conditions : Option (List (String × String))
deriving DecidableEq

/-- The mutable request the signers transform. -/
structure Request where
  method : String
  url : String
  headers : Headers
  params : List (String × String)
  data : ReqData
  body : Body
  context : Context
deriving DecidableEq

/-- Errors a signing call can raise. -/
inductive SigErr
  | noCredentials
  | noAuthToken
  | attributeError
  | readError
  | jsonError
  | typeError
deriving DecidableEq

/-- Outcome of add_auth: the signed request, or the raised error together with the request
state at the moment of the raise (in-place mutations persist past a Python exception). -/
inductive SignResult
  | ok (r : Request)
  | err (e : SigErr) (r : Request)
deriving DecidableEq

/-- The request held inside either outcome. -/
def SignResult.req : SignResult → Request
  | .ok r => r
  | .err _ r => r

/-- A body whose reads cannot fail (no injected stream fault). -/
def Body.noFail : Body → Prop
  | .reader rd => rd.failAfter = Option.none
  | _ => True

instance : DecidablePred Body.noFail := fun b => by
  cases b <;> simp [Body.noFail] <;> infer_instance

def EMPTY_SHA256_HASH : String := "e3b0c44298fc1c149afbf4c8996fb92427ae41e4649b934ca495991b7852b855"

/-- The buffer size used when calculating sha256 checksums (1 MiB). -/
def PAYLOAD_BUFFER : Nat := 1048576

def SIGNED_HEADERS_BLACKLIST : List String := ["expect", "user-agent", "x-amzn-trace-id"]

def UNSIGNED_PAYLOAD : String := "UNSIGNED-PAYLOAD"

def STREAMING_UNSIGNED_PAYLOAD_TRAILER : String := "STREAMING-UNSIGNED-PAYLOAD-TRAILER"

/-- The concrete SigV4-family signer classes this embedding covers.  The CRT-backed
asymmetric signers and the S3 Express query and POST subclasses are outside it, as are
their registry-only constructors. -/
inductive V4Kind
  | v4
  | s3v4
  | s3express
  | v4query
  | s3v4query
deriving DecidableEq

/-- A SigV4-family signer instance: subclass tag, credentials, service, region, and the
expires parameter of the query signers. -/
structure V4Signer where
  kind : V4Kind
  credentials : Option Credentials
  service_name : String
  region_name : String
  expires : Nat
deriving DecidableEq

/-- Which subclasses override _should_sha256_sign_payload with the S3 policy
(S3SigV4Auth and its header-flow descendants). -/
def V4Kind.usesS3Policy : V4Kind → Bool
  | .s3v4 | .s3express => true
  | _ => false

/-- Which subclasses override _normalize_url_path to keep the path literal. -/
def V4Kind.isS3Path : V4Kind → Bool
  | .v4 | .v4query => false
  | _ => true

/-- Which subclasses override payload with the constant unsigned marker
(the S3 presigned-URL signer). -/
def V4Kind.unsignedPayloadAlways : V4Kind → Bool
  | .s3v4query => true
  | _ => false

/-- Which subclasses inject the signature as a query parameter. -/
def V4Kind.isQuery : V4Kind → Bool
  | .v4query | .s3v4query => true
  | _ => false

/-- Select the headers included in the canonical request: lowercase every name, drop the
blacklist, and synthesize host from the URL when absent. -/
def SigV4Auth.headers_to_sign (r : Request) : Headers :=
  let header_map := r.headers.foldl
    (fun m p =>
      if SIGNED_HEADERS_BLACKLIST.contains (lowerStr p.1) then m else hAdd m (lowerStr p.1) p.2) []
  if hHas header_map "host" then header_map else hAdd header_map "host" (_host_from_url r.url)

/-- Canonical query from request.params: percent-encode each pair with -_.~ safe, sort by
encoded key then value, join k=v with ampersands. -/
def SigV4Auth._canonical_query_string_params (params : List (String × String)) : String :=
  let key_val_pairs := params.map (fun p => (pyQuote p.1 "-_.~", pyQuote p.2 "-_.~"))
  String.intercalate "&" ((sortLe pairLeB key_val_pairs).map (fun p => p.1 ++ "=" ++ p.2))

/-- Canonical query from the URL: split on ampersands, partition each at the first equals
sign, sort, rejoin without re-encoding. -/
def SigV4Auth._canonical_query_string_url (parts : UrlParts) : String :=
  if parts.query ≠ "" then
    let key_val_pairs := (splitChar '&' parts.query.toList).map (fun pair =>
      let p := splitFirst '=' pair
      ((⟨p.1⟩ : String), (⟨p.2⟩ : String)))
    String.intercalate "&" ((sortLe pairLeB key_val_pairs).map (fun p => p.1 ++ "=" ++ p.2))
  else ""

/-- The canonical query string comes from request.params when nonempty, else from the URL. -/
def SigV4Auth.canonical_query_string (r : Request) : String :=
  if r.params ≠ [] then SigV4Auth._canonical_query_string_params r.params
  else SigV4Auth._canonical_query_string_url (urlsplit r.url)

/-- Trimall: collapse whitespace runs to single spaces and trim the ends. -/
def SigV4Auth._header_value (v : String) : String := String.intercalate " " (splitWs v)

/-- Canonical header block: sorted distinct lowercase names, each with its comma-joined
trimmed values. -/
def SigV4Auth.canonical_headers (headers_to_sign : Headers) : String :=
  let sorted_header_names := sortLe strLeB ((headers_to_sign.map (fun p => p.1)).dedup)
  String.intercalate "\n" (sorted_header_names.map (fun key =>
    key ++ ":" ++ String.intercalate "," ((hGetAll headers_to_sign key).map SigV4Auth._header_value)))

/-- The SignedHeaders list: sorted distinct lowercased stripped names joined by semicolons. -/
def SigV4Auth.signed_headers (headers_to_sign : Headers) : String :=
  String.intercalate ";"
    (sortLe strLeB (((headers_to_sign.map (fun p => p.1)).dedup).map (fun n => pyStrip (lowerStr n))))

/-- Whether the checksum context names an in-trailer algorithm mapping. -/
def SigV4Auth._is_streaming_checksum_payload (r : Request) : Bool :=
  match r.context.checksum_request_algorithm with
  | .dict (some loc) _ => loc = "trailer"
  | _ => false

/-- Generic payload policy: always sign over insecure URLs, else follow the
payload_signing_enabled context flag, defaulting to signing. -/
def SigV4Auth._should_sha256_sign_payload (r : Request) : Bool :=
  if ¬ (strStarts r.url "https") then true
  else (r.context.payload_signing_enabled).getD true

/-- S3 payload policy overlay: explicit client-config setting wins; else sign when the URL
is insecure or the checksum header is absent; else skip for streaming input; else defer to
the generic policy. -/
def S3SigV4Auth._should_sha256_sign_payload (r : Request) : Bool :=
  let s3_config := ((r.context.client_config).bind (fun cc => cc.s3)).getD ⟨Option.none⟩
  match s3_config.payload_signing_enabled with
  | some b => b
  | Option.none =>
    let checksum_header :=
      match r.context.checksum_request_algorithm with
      | .dict (some loc) name => if loc = "header" then name else "Content-MD5"
      | _ => "Content-MD5"
    if ¬ (strStarts r.url "https") ∨ ¬ hHas r.headers checksum_header then true
    else if (r.context.has_streaming_input).getD false then false
    else SigV4Auth._should_sha256_sign_payload r

/-- Payload policy with subclass dispatch. -/
def shouldSignDispatch (s : V4Signer) (r : Request) : Bool :=
  if s.kind.usesS3Policy then S3SigV4Auth._should_sha256_sign_payload r
  else SigV4Auth._should_sha256_sign_payload r

/-- One read call on a seekable body: fails when the instrumented fault counter hits zero,
else returns the next chunk of at most `n` bytes and advances. -/
def SigV4Auth.readChunk (rd : Reader) (n : Nat) : Except Reader (List Nat × Reader) :=
  match rd.failAfter with
  | some 0 => .error rd
  | fa =>
    let chunk := (rd.data.drop rd.pos).take n
    .ok (chunk, ⟨rd.data, rd.pos + chunk.length, fa.map (fun k => k - 1)⟩)

/-- The chunked read loop of payload hashing: accumulate chunks until an empty read.
A read failure propagates with the reader state as the exception leaves it. -/
def SigV4Auth.readAll : Nat → Reader → List Nat → Except Reader (List Nat × Reader)
  | 0, rd, _ => .error rd
  | fuel + 1, rd, acc =>
    match SigV4Auth.readChunk rd PAYLOAD_BUFFER with
    | .error rd' => .error rd'
    | .ok (chunk, rd') =>
      if chunk = [] then .ok (acc, rd') else SigV4Auth.readAll fuel rd' (acc ++ chunk)

/-- The payload hash decision of SigV4Auth.payload, threading the body state: streaming
trailer constant, unsigned constant, chunked seekable hash with position restore on the
success path, byte hash, or the empty-string digest. -/
def SigV4Auth.payload (s : V4Signer) (r : Request) : Except Body (String × Body) :=
  if SigV4Auth._is_streaming_checksum_payload r then .ok (STREAMING_UNSIGNED_PAYLOAD_TRAILER, r.body)
  else if ¬ shouldSignDispatch s r then .ok (UNSIGNED_PAYLOAD, r.body)
  else
    match r.body with
    | .reader rd =>
      let position := rd.pos
      match SigV4Auth.readAll (rd.data.length + 1) rd [] with
      | .error rd' => .error (.reader rd')
      | .ok (bytes, rd') => .ok (sha256Hex bytes, .reader ⟨rd'.data, position, rd'.failAfter⟩)
    | .bytes bs => if bs ≠ [] then .ok (sha256Hex bs, r.body) else .ok (EMPTY_SHA256_HASH, r.body)
    | .absent => .ok (EMPTY_SHA256_HASH, r.body)

/-- Payload with subclass dispatch: the S3 presigned-URL signer substitutes the constant. -/
def payloadDispatch (s : V4Signer) (r : Request) : Except Body (String × Body) :=
  if s.kind.unsignedPayloadAlways then .ok (UNSIGNED_PAYLOAD, r.body) else SigV4Auth.payload s r

/-- Path canonicalization with subclass dispatch: S3 keeps the path literal, generic SigV4
normalizes dot segments then quotes with slash and tilde safe. -/
def normalizePathDispatch (s : V4Signer) (path : String) : String :=
  if s.kind.isS3Path then path else pyQuote (normalize_url_path path) "/~"

/-- The five-line canonical request, using an X-Amz-Content-SHA256 header value as the body
checksum when present, else the computed payload hash. -/
def SigV4Auth.canonical_request (s : V4Signer) (r : Request) : Except Body (String × Body) :=
  let path := normalizePathDispatch s (urlsplit r.url).path
  let hts := SigV4Auth.headers_to_sign r
  let bcRes :=
    if hHas r.headers "X-Amz-Content-SHA256" then
      .ok ((hGet r.headers "X-Amz-Content-SHA256").getD "", r.body)
    else payloadDispatch s r
  match bcRes with
  | .error b => .error b
  | .ok (bc, b') =>
    .ok (String.intercalate "\n"
      [upperStr r.method, path, SigV4Auth.canonical_query_string r,
       SigV4Auth.canonical_headers hts ++ "\n", SigV4Auth.signed_headers hts, bc], b')

/-- The timestamp the driver stored in the request context. -/
def SigV4Auth.ctxTimestamp (r : Request) : String := (r.context.timestamp).getD ""

def strTake (s : String) (n : Nat) : String := ⟨s.toList.take n⟩

/-- Credential scope with the access key first. -/
def SigV4Auth.scope (c : Credentials) (s : V4Signer) (r : Request) : String :=
  String.intercalate "/"
    [c.access_key, strTake (SigV4Auth.ctxTimestamp r) 8, s.region_name, s.service_name, "aws4_request"]

def SigV4Auth.credential_scope (s : V4Signer) (r : Request) : String :=
  String.intercalate "/"
    [strTake (SigV4Auth.ctxTimestamp r) 8, s.region_name, s.service_name, "aws4_request"]

def SigV4Auth.string_to_sign (s : V4Signer) (r : Request) (canonical_request : String) : String :=
  String.intercalate "\n"
    ["AWS4-HMAC-SHA256", SigV4Auth.ctxTimestamp r, SigV4Auth.credential_scope s r,
     sha256Hex (utf8 canonical_request)]

/-- The four-step key-derivation chain and final hex signature. -/
def SigV4Auth.signature (c : Credentials) (s : V4Signer) (r : Request) (string_to_sign : String) : String :=
  let k_date := hmacSha256 (utf8 ("AWS4" ++ c.secret_key)) (utf8 (strTake (SigV4Auth.ctxTimestamp r) 8))
  let k_region := hmacSha256 k_date (utf8 s.region_name)
  let k_service := hmacSha256 k_region (utf8 s.service_name)
  let k_signing := hmacSha256 k_service (utf8 "aws4_request")
  bytesToHex (hmacSha256 k_signing (utf8 string_to_sign))

/-- The Date-header rule: an existing Date header is rewritten to the RFC 2822 rendering of
the context timestamp and X-Amz-Date dropped; otherwise X-Amz-Date carries the timestamp
literally. -/
def SigV4Auth._set_necessary_date_headers (r : Request) : Headers :=
  if hHas r.headers "Date" then
    gDel (hAdd (hDel r.headers "Date") "Date"
      (formatdateOfTimestamp (SigV4Auth.ctxTimestamp r))) "X-Amz-Date"
  else
    hAdd (gDel r.headers "X-Amz-Date") "X-Amz-Date" (SigV4Auth.ctxTimestamp r)

/-- Pre-signing mutations of the header signer: drop a prior Authorization, set date
headers, refresh the session-token header, and pin the unsigned-payload header when payload
signing is disabled. -/
def SigV4Auth._modify_request_before_signing (c : Credentials) (r : Request) : Request :=
  let r := { r with headers := gDel r.headers "Authorization" }
  let r := { r with headers := SigV4Auth._set_necessary_date_headers r }
  let h :=
    match c.token with
    | some t => gSet r.headers "X-Amz-Security-Token" t
    | Option.none => r.headers
  let r := { r with headers := h }
  let h :=
    if ¬ ((r.context.payload_signing_enabled).getD true) then
      gSet r.headers "X-Amz-Content-SHA256" UNSIGNED_PAYLOAD
    else r.headers
  { r with headers := h }

/-- S3 overlay of the pre-signing step: recompute and set X-Amz-Content-SHA256 from the
payload; a read failure during hashing escapes with the header still deleted. -/
def S3SigV4Auth._modify_request_before_signing (s : V4Signer) (c : Credentials) (r : Request) : SignResult :=
  let r := SigV4Auth._modify_request_before_signing c r
  let r := { r with headers := gDel r.headers "X-Amz-Content-SHA256" }
  match SigV4Auth.payload s r with
  | .error b => .err .readError { r with body := b }
  | .ok (pv, b) => .ok { r with headers := hAdd r.headers "X-Amz-Content-SHA256" pv, body := b }

/-- S3 Express overlay: set the session-token header only when absent, then remove any
generic security-token header.  A null session token, which Python would store as a null
header value, is modeled as the empty string. -/
def S3ExpressAuth._modify_request_before_signing (s : V4Signer) (c : Credentials) (r : Request) : SignResult :=
  match S3SigV4Auth._modify_request_before_signing s c r with
  | .err e r' => .err e r'
  | .ok r =>
    let h :=
      if ¬ hHas r.headers "x-amz-s3session-token" then
        hAdd r.headers "x-amz-s3session-token" (c.token.getD "")
      else r.headers
    let h := gDel h "X-Amz-Security-Token"
    .ok { r with headers := h }

/-- Coerce the request body to a mapping for query-string relocation; non-mapping JSON
text is not modeled, so a nonempty text body reports the JSON decode path as an error. -/
def _get_body_as_dict (d : ReqData) : Except Unit (List (String × String)) :=
  match d with
  | .dict m => .ok m
  | .str ds => if ds = "" then .ok [] else .error ()

/-- Pre-signing step of the SigV4 query signer: drop the auto-set form content-type, build
the ordered auth parameters, relocate a mapping body into the URL query, and reassemble the
URL as operation parameters then auth parameters.  request.params is left untouched. -/
def SigV4QueryAuth._modify_request_before_signing (s : V4Signer) (c : Credentials) (r : Request) : SignResult :=
  let h :=
    if hGet r.headers "content-type" = some "application/x-www-form-urlencoded; charset=utf-8"
    then hDel r.headers "content-type" else r.headers
  let r := { r with headers := h }
  let signed_headers := SigV4Auth.signed_headers (SigV4Auth.headers_to_sign r)
  let auth_params :=
    [("X-Amz-Algorithm", "AWS4-HMAC-SHA256"),
     ("X-Amz-Credential", SigV4Auth.scope c s r),
     ("X-Amz-Date", SigV4Auth.ctxTimestamp r),
     ("X-Amz-Expires", toString s.expires),
     ("X-Amz-SignedHeaders", signed_headers)] ++
    (match c.token with | some t => [("X-Amz-Security-Token", t)] | Option.none => [])
  let url_parts := urlsplit r.url
  let query_dict := (parse_qs url_parts.query).map (fun kv => (kv.1, kv.2.headD ""))
  let dataTruthy : Bool := match r.data with | .dict d => !d.isEmpty | .str ds => !ds.isEmpty
  if dataTruthy then
    match _get_body_as_dict r.data with
    | .error _ => .err .jsonError r
    | .ok bodyDict =>
      let query_dict := dUpdate query_dict bodyDict
      let r := { r with data := ReqData.str "" }
      let operation_params :=
        if query_dict ≠ [] then percent_encode_sequence query_dict ++ "&" else ""
      let new_query_string := operation_params ++ percent_encode_sequence auth_params
      let p := url_parts
      .ok { r with url := urlunsplit ⟨p.scheme, p.netloc, p.path, new_query_string, p.fragment⟩ }
  else
    let operation_params :=
      if query_dict ≠ [] then percent_encode_sequence query_dict ++ "&" else ""
    let new_query_string := operation_params ++ percent_encode_sequence auth_params
    let p := url_parts
    .ok { r with url := urlunsplit ⟨p.scheme, p.netloc, p.path, new_query_string, p.fragment⟩ }

/-- Subclass dispatch of the pre-signing step. -/
def modifyDispatch (s : V4Signer) (c : Credentials) (r : Request) : SignResult :=
  match s.kind with
  | .v4 => .ok (SigV4Auth._modify_request_before_signing c r)
  | .s3v4 => S3SigV4Auth._modify_request_before_signing s c r
  | .s3express => S3ExpressAuth._modify_request_before_signing s c r
  | .v4query | .s3v4query => SigV4QueryAuth._modify_request_before_signing s c r

/-- Header-flow signature injection: the comma-joined Authorization value. -/
def SigV4Auth._inject_signature_to_request (s : V4Signer) (c : Credentials) (r : Request) (signature : String) : Request :=
  let l := ["AWS4-HMAC-SHA256 Credential=" ++ SigV4Auth.scope c s r,
            "SignedHeaders=" ++ SigV4Auth.signed_headers (SigV4Auth.headers_to_sign r),
            "Signature=" ++ signature]
  { r with headers := hAdd r.headers "Authorization" (String.intercalate ", " l) }

/-- Query-flow signature injection: append the signature parameter to the URL. -/
def SigV4QueryAuth._inject_signature_to_request (r : Request) (signature : String) : Request :=
  { r with url := r.url ++ "&X-Amz-Signature=" ++ signature }

def injectDispatch (s : V4Signer) (c : Credentials) (r : Request) (sig : String) : Request :=
  if s.kind.isQuery then SigV4QueryAuth._inject_signature_to_request r sig
  else SigV4Auth._inject_signature_to_request s c r sig

/-- The SigV4-family add_auth driver: credential check, fix the context timestamp from the
injected clock reading `now`, pre-signing mutations, canonical request, string to sign,
signature, and injection. -/
def SigV4Auth.add_auth (s : V4Signer) (now : String) (r : Request) : SignResult :=
  match s.credentials with
  | Option.none => .err .noCredentials r
  | some c =>
    let r := { r with context := { r.context with timestamp := some now } }
    match modifyDispatch s c r with
    | .err e r' => .err e r'
    | .ok r =>
      match SigV4Auth.canonical_request s r with
      | .error b => .err .readError { r with body := b }
      | .ok (cr, b) =>
        let r := { r with body := b }
        let sts := SigV4Auth.string_to_sign s r cr
        let sig := SigV4Auth.signature c s r sts
        .ok (injectDispatch s c r sig)

/-- SigV2 string-to-sign and signature: method, netloc, path (slash when empty), then the
sorted encoded parameters with any prior Signature key skipped; keys are quoted with no
extra safe characters and values with -_~ safe; the signature is base64 of HMAC-SHA256
under the raw secret key. -/
def SigV2Auth.calc_signature (c : Credentials) (r : Request) (params : List (String × String)) : String × String :=
  let split := urlsplit r.url
  let path := if split.path = "" then "/" else split.path
  let sts0 := r.method ++ "\n" ++ split.netloc ++ "\n" ++ path ++ "\n"
  let pairs := (sortLe strLeB (params.map (fun p => p.1))).filterMap (fun key =>
    if key = "Signature" then Option.none
    else some (pyQuote key "" ++ "=" ++ pyQuote ((dGet params key).getD "") "-_~"))
  let qs := String.intercalate "&" pairs
  (qs, b64encode (hmacSha256 (utf8 c.secret_key) (utf8 (sts0 ++ qs))))

/-- SigV2 add_auth: fail without credentials; pick request.data when truthy (the POST
case) else request.params; inject the standard parameters and the computed Signature into
that mapping in place.  Nonempty text data, which Python would fail to assign into, is the
type-error path. -/
def SigV2Auth.add_auth (cred : Option Credentials) (nowIso : String) (r : Request) : SignResult :=
  match cred with
  | Option.none => .err .noCredentials r
  | some c =>
    let go := fun (base : List (String × String)) (fromData : Bool) =>
      let ps := dSet base "AWSAccessKeyId" c.access_key
      let ps := dSet ps "SignatureVersion" "2"
      let ps := dSet ps "SignatureMethod" "HmacSHA256"
      let ps := dSet ps "Timestamp" nowIso
      let ps := match c.token with | some t => dSet ps "SecurityToken" t | Option.none => ps
      let sig := (SigV2Auth.calc_signature c r ps).2
      let ps := dSet ps "Signature" sig
      if fromData then SignResult.ok { r with data := ReqData.dict ps }
      else SignResult.ok { r with params := ps }
    match r.data with
    | .str ds => if ds ≠ "" then .err .typeError r else go r.params false
    | .dict d => if d ≠ [] then go d true else go r.params false

/-- SigV3 add_auth: fail without credentials; replace Date with the injected HTTP-date
clock reading; refresh the security-token header when a session token exists; sign the Date
value with HMAC-SHA256 and install the X-Amzn-Authorization header. -/
def SigV3Auth.add_auth (cred : Option Credentials) (nowRfc : String) (r : Request) : SignResult :=
  match cred with
  | Option.none => .err .noCredentials r
  | some c =>
    let h := gSet r.headers "Date" nowRfc
    let h :=
      match c.token with
      | some t => gSet h "X-Amz-Security-Token" t
      | Option.none => h
    let encoded := b64encode (hmacSha256 (utf8 c.secret_key) (utf8 ((hGet h "Date").getD "")))
    let sigStr := "AWS3-HTTPS AWSAccessKeyId=" ++ c.access_key ++
      ",Algorithm=HmacSHA256,Signature=" ++ encoded
    let h := gSet h "X-Amzn-Authorization" sigStr
    .ok { r with headers := h }

/-- JSON rendering of the presigned-POST policy document, restricted to the conditions
list of single-pair objects that this embedding models (plain strings, no escaping). -/
def jsonPolicy (conditions : List (String × String)) : String :=
  "\x7b\"conditions\": [" ++
    String.intercalate ", "
      (conditions.map (fun kv => "\x7b\"" ++ kv.1 ++ "\": \"" ++ kv.2 ++ "\"\x7d")) ++
    "]\x7d"

/-- S3 presigned-POST add_auth.  The source never checks credentials here: the context
timestamp is written first, and with credentials unset the later attribute access on None
raises, leaving the mutation behind.  The policy dict is modeled by its conditions list,
and dict aliasing between the context and the local fields is not modeled. -/
def S3SigV4PostAuth.add_auth (cred : Option Credentials) (region service now : String) (r : Request) : SignResult :=
  let r := { r with context := { r.context with timestamp := some now } }
  let fields := (r.context.s3_presign_post_fields).getD []
  let conditions := (r.context.s3_presign_post_conditions).getD []
  let fields := dSet fields "x-amz-algorithm" "AWS4-HMAC-SHA256"
  match cred with
  | Option.none => .err .attributeError r
  | some c =>
    let ts := (r.context.timestamp).getD ""
    let scopeStr := String.intercalate "/"
      [c.access_key, strTake ts 8, region, service, "aws4_request"]
    let fields := dSet fields "x-amz-credential" scopeStr
    let fields := dSet fields "x-amz-date" ts
    let conditions := conditions ++
      [("x-amz-algorithm", "AWS4-HMAC-SHA256"), ("x-amz-credential", scopeStr), ("x-amz-date", ts)]
    let fieldsConds :=
      match c.token with
      | some t => (dSet fields "x-amz-security-token" t, conditions ++ [("x-amz-security-token", t)])
      | Option.none => (fields, conditions)
    let fields := fieldsConds.1
    let conditions := fieldsConds.2
    let policyB64 := b64encode (utf8 (jsonPolicy conditions))
    let fields := dSet fields "policy" policyB64
    let k_date := hmacSha256 (utf8 ("AWS4" ++ c.secret_key)) (utf8 (strTake ts 8))
    let k_region := hmacSha256 k_date (utf8 region)
    let k_service := hmacSha256 k_region (utf8 service)
    let k_signing := hmacSha256 k_service (utf8 "aws4_request")
    let sig := bytesToHex (hmacSha256 k_signing (utf8 policyB64))
    let fields := dSet fields "x-amz-signature" sig
    .ok { r with context := { r.context with
      s3_presign_post_fields := some fields, s3_presign_post_conditions := some conditions } }

/-- The scheme tags registered in AUTH_TYPE_MAPS. -/
def AUTH_TYPE_MAPS : List String :=
  ["v2", "v4", "v4a", "v4-query", "v3", "v3https", "s3v4", "s3v4-query", "s3v4-presign-post",
   "s3v4a", "s3v4a-query", "v4-s3express", "v4-s3express-query", "v4-s3express-presign-post",
   "bearer"]

/-- The model-trait to scheme-tag translation table. -/
def AUTH_TYPE_TO_SIGNATURE_VERSION : List (String × String) :=
  [("aws.auth#sigv4", "v4"), ("aws.auth#sigv4a", "v4a"),
   ("smithy.api#httpBearerAuth", "bearer"), ("smithy.api#noAuth", "none")]

/-- The two resolver failure modes, with their Python exception payloads. -/
inductive ResolveErr
  | unknown (t : String)
  | unsupported (l : List String)
deriving DecidableEq

/-- Walk the ordered trait list: the noAuth trait returns its tag immediately; a known
trait is returned when its tag is registered and skipped otherwise; an unknown trait raises
at once; an exhausted list raises unsupported. -/
def resolve_auth_type (auth_trait : List String) : Except ResolveErr String :=
  go auth_trait
where
  go : List String → Except ResolveErr String
    | [] => .error (.unsupported auth_trait)
    | auth_type :: rest =>
      if auth_type = "smithy.api#noAuth" then
        .ok ((dGet AUTH_TYPE_TO_SIGNATURE_VERSION auth_type).getD "")
      else
        match dGet AUTH_TYPE_TO_SIGNATURE_VERSION auth_type with
        | some signature_version =>
          if AUTH_TYPE_MAPS.contains signature_version then .ok signature_version else go rest
        | Option.none => .error (.unknown auth_type)

/-- The empty context most concrete requests start from. -/
def emptyContext : Context :=
  ⟨Option.none, Option.none, Option.none, .absent, Option.none, Option.none, Option.none⟩

/-- The AWS documentation example signer for scenario checks. -/
def goldenSigner : V4Signer :=
  ⟨.v4, some ⟨"AKIDEXAMPLE", "wJalrXUtnFEMI/K7MDENG+bPxRfiCYEXAMPLEKEY", Option.none⟩,
   "iam", "us-east-1", 3600⟩

/-- The AWS documentation example request: GET ListUsers on IAM. -/
def goldenRequest : Request :=
  ⟨"GET", "https://iam.amazonaws.com/?Action=ListUsers&Version=2010-05-08",
   [("Host", "iam.amazonaws.com"),
    ("Content-Type", "application/x-www-form-urlencoded; charset=utf-8")],
   [], .str "", .absent, emptyContext⟩

set_option maxHeartbeats 4000000 in
/-- End-to-end scenario check against the published AWS SigV4 example signature. -/
theorem sigv4_golden_vector :
    hGet (SigV4Auth.add_auth goldenSigner "20150830T123600Z" goldenRequest).req.headers
        "Authorization" =
      some ("AWS4-HMAC-SHA256 Credential=AKIDEXAMPLE/20150830/us-east-1/iam/aws4_request, " ++
        "SignedHeaders=content-type;host;x-amz-date, " ++
        "Signature=5d672d79c15b13162d9279b0855cfba6789a8edb4c82c400e06b5924a6f2b5d7") := by
  decide

/-- The position of a seekable body, zero for the other shapes. -/
def bodyPos : Body → Nat
  | .reader rd => rd.pos
  | _ => 0

/-- The chunked read loop with a fault-free reader succeeds once the fuel exceeds the
remaining byte count, accumulating exactly the bytes from the current position on. -/
theorem readAll_ok (d : List Nat) :
    ∀ fuel pos acc, d.length - pos < fuel →
      ∃ q, SigV4Auth.readAll fuel ⟨d, pos, Option.none⟩ acc =
        Except.ok (acc ++ d.drop pos, ⟨d, q, Option.none⟩) := by
  intro fuel
  induction fuel with
  | zero => intro pos acc h; omega
  | succ n ih =>
    intro pos acc h
    have hrc : SigV4Auth.readChunk ⟨d, pos, Option.none⟩ PAYLOAD_BUFFER =
        Except.ok ((d.drop pos).take PAYLOAD_BUFFER,
          ⟨d, pos + ((d.drop pos).take PAYLOAD_BUFFER).length, Option.none⟩) := rfl
    by_cases he : (d.drop pos).take PAYLOAD_BUFFER = []
    · have hd : d.drop pos = [] := by
        cases hdp : d.drop pos with
        | nil => rfl
        | cons a l =>
          rw [hdp] at he
          have hb : PAYLOAD_BUFFER = 1048575 + 1 := rfl
          rw [hb] at he
          simp at he
      refine ⟨pos, ?_⟩
      simp [SigV4Auth.readAll, hrc, he, hd]
    · have hplen : pos < d.length := by
        by_contra hge
        push_neg at hge
        have hnil : d.drop pos = [] := List.drop_eq_nil_of_le hge
        rw [hnil] at he
        simp at he
      have hchlen : 1 ≤ ((d.drop pos).take PAYLOAD_BUFFER).length := by
        cases hx : (d.drop pos).take PAYLOAD_BUFFER with
        | nil => exact absurd hx he
        | cons a l => simp
      rcases ih (pos + ((d.drop pos).take PAYLOAD_BUFFER).length)
        (acc ++ (d.drop pos).take PAYLOAD_BUFFER) (by omega) with ⟨q, hq⟩
      refine ⟨q, ?_⟩
      have hstep : SigV4Auth.readAll (n + 1) ⟨d, pos, Option.none⟩ acc =
          SigV4Auth.readAll n ⟨d, pos + ((d.drop pos).take PAYLOAD_BUFFER).length, Option.none⟩
            (acc ++ (d.drop pos).take PAYLOAD_BUFFER) := by
        simp only [SigV4Auth.readAll, hrc]
        rw [if_neg he]
      rw [hstep, hq]
      have hdrop : d.drop (pos + ((d.drop pos).take PAYLOAD_BUFFER).length) =
          (d.drop pos).drop ((d.drop pos).take PAYLOAD_BUFFER).length := by
        rw [List.drop_drop]
      have hjoin : (d.drop pos).take PAYLOAD_BUFFER ++
          (d.drop pos).drop (((d.drop pos).take PAYLOAD_BUFFER).length) = d.drop pos := by
        rcases Nat.le_total PAYLOAD_BUFFER (d.drop pos).length with hle | hle
        · rw [List.length_take, Nat.min_eq_left hle]
          exact List.take_append_drop PAYLOAD_BUFFER (d.drop pos)
        · rw [List.take_of_length_le hle, List.drop_length]
          simp
      rw [hdrop, List.append_assoc, hjoin]

/-- C2 helper: payload on a fault-free seekable body hashes the bytes from the current
position and restores the position. -/
theorem payload_reader_hash (s : V4Signer) (r : Request) (d : List Nat) (p : Nat)
    (hb : r.body = Body.reader ⟨d, p, Option.none⟩)
    (h1 : SigV4Auth._is_streaming_checksum_payload r = false)
    (h2 : shouldSignDispatch s r = true) :
    SigV4Auth.payload s r = Except.ok (sha256Hex (d.drop p), Body.reader ⟨d, p, Option.none⟩) := by
  rcases readAll_ok d (d.length + 1) p [] (by omega) with ⟨q, hq⟩
  simp [SigV4Auth.payload, h1, h2, hb, hq]

/-- C6 amended helper theorem granularity lives in the single claim theorem below. -/
theorem resolve_go_unfold (l : List String) (t : String) (rest : List String) :
    resolve_auth_type.go l (t :: rest) =
      (if t = "smithy.api#noAuth" then
        Except.ok ((dGet AUTH_TYPE_TO_SIGNATURE_VERSION t).getD "")
      else
        match dGet AUTH_TYPE_TO_SIGNATURE_VERSION t with
        | some sv => if AUTH_TYPE_MAPS.contains sv then Except.ok sv else resolve_auth_type.go l rest
        | Option.none => Except.error (ResolveErr.unknown t)) := by
  rfl

theorem lowerChar_toNat_of (c : Char) (h : 65 ≤ c.toNat ∧ c.toNat ≤ 90) :
    (lowerChar c).toNat = c.toNat + 32 := by
  rw [lowerChar, dif_pos h]
  rfl

theorem lowerChar_eq_of_not (c : Char) (h : ¬(65 ≤ c.toNat ∧ c.toNat ≤ 90)) :
    lowerChar c = c := by
  rw [lowerChar, dif_neg h]

theorem lowerChar_idem (c : Char) : lowerChar (lowerChar c) = lowerChar c := by
  by_cases h : 65 ≤ c.toNat ∧ c.toNat ≤ 90
  · have ht := lowerChar_toNat_of c h
    apply lowerChar_eq_of_not
    omega
  · rw [lowerChar_eq_of_not c h]
    exact lowerChar_eq_of_not c h

theorem lowerStr_idem (s : String) : lowerStr (lowerStr s) = lowerStr s := by
  unfold lowerStr
  apply congrArg
  show (s.toList.map lowerChar).map lowerChar = s.toList.map lowerChar
  rw [List.map_map]
  exact List.map_congr_left (fun c _ => lowerChar_idem c)

theorem hGetAll_congr (h : Headers) {n m : String} (e : lowerStr n = lowerStr m) :
    hGetAll h n = hGetAll h m := by
  unfold hGetAll
  simp only [e]

theorem hHas_false_iff (h : Headers) (n : String) : hHas h n = false ↔ hGetAll h n = [] := by
  unfold hHas hGetAll
  induction h with
  | nil => simp
  | cons p t ih =>
    by_cases hp : lowerStr p.1 = lowerStr n <;> simp [hp, ih]

theorem hHas_true_iff (h : Headers) (n : String) : hHas h n = true ↔ hGetAll h n ≠ [] := by
  constructor
  · intro hh he
    rw [← hHas_false_iff] at he
    rw [hh] at he
    cases he
  · intro hne
    cases hc : hHas h n with
    | true => rfl
    | false => exact absurd ((hHas_false_iff h n).mp hc) hne

theorem hGetAll_hAdd (h : Headers) (m v n : String) :
    hGetAll (hAdd h m v) n = hGetAll h n ++ (if lowerStr n = lowerStr m then [v] else []) := by
  unfold hGetAll hAdd
  rw [List.filter_append, List.map_append]
  congr 1
  by_cases e : lowerStr n = lowerStr m
  · simp [e, List.filter_cons]
  · have hne : ¬ (lowerStr m = lowerStr n) := fun hh => e hh.symm
    simp [e, List.filter_cons, hne]

theorem hGetAll_cons (p : String × String) (l : Headers) (n : String) :
    hGetAll (p :: l) n =
      (if lowerStr p.1 = lowerStr n then [p.2] else []) ++ hGetAll l n := by
  unfold hGetAll
  by_cases hq : lowerStr p.1 = lowerStr n <;> simp [List.filter_cons, hq]

theorem hDel_cons (p : String × String) (l : Headers) (m : String) :
    hDel (p :: l) m = if lowerStr p.1 = lowerStr m then hDel l m else p :: hDel l m := by
  unfold hDel
  by_cases hp : lowerStr p.1 = lowerStr m <;> simp [List.filter_cons, hp]

theorem hGetAll_hDel (h : Headers) (m n : String) :
    hGetAll (hDel h m) n = if lowerStr n = lowerStr m then [] else hGetAll h n := by
  induction h with
  | nil =>
    unfold hGetAll hDel
    by_cases e : lowerStr n = lowerStr m <;> simp [e]
  | cons p t ih =>
    rw [hDel_cons]
    by_cases hp : lowerStr p.1 = lowerStr m
    · rw [if_pos hp, ih, hGetAll_cons]
      by_cases e : lowerStr n = lowerStr m
      · rw [if_pos e, if_pos e]
      · rw [if_neg e, if_neg e]
        have hpn : ¬ (lowerStr p.1 = lowerStr n) := fun hh => e (hh.symm.trans hp)
        rw [if_neg hpn]
        rfl
    · rw [if_neg hp, hGetAll_cons, hGetAll_cons, ih]
      by_cases e : lowerStr n = lowerStr m
      · rw [if_pos e, if_pos e]
        have hq : ¬ (lowerStr p.1 = lowerStr n) := fun hh => hp (hh.trans e)
        rw [if_neg hq]
        rfl
      · rw [if_neg e, if_neg e]

theorem hGetAll_gDel (h : Headers) (m n : String) :
    hGetAll (gDel h m) n = if lowerStr n = lowerStr m then [] else hGetAll h n := by
  unfold gDel
  by_cases hh : hHas h m
  · rw [if_pos hh, hGetAll_hDel]
  · rw [if_neg hh]
    by_cases e : lowerStr n = lowerStr m
    · rw [if_pos e, hGetAll_congr h e]
      exact (hHas_false_iff h m).mp (Bool.of_not_eq_true hh)
    · rw [if_neg e]

theorem hGetAll_gSet (h : Headers) (m v n : String) :
    hGetAll (gSet h m v) n = if lowerStr n = lowerStr m then [v] else hGetAll h n := by
  unfold gSet
  rw [hGetAll_hAdd, hGetAll_gDel]
  by_cases e : lowerStr n = lowerStr m <;> simp [e]

theorem hGet_eq_head (h : Headers) (n : String) : hGet h n = (hGetAll h n).head? := by
  induction h with
  | nil => rfl
  | cons p t ih =>
    rw [hGetAll_cons]
    by_cases hp : lowerStr p.1 = lowerStr n
    · have hb : (lowerStr p.1 == lowerStr n) = true := beq_iff_eq.mpr hp
      unfold hGet
      simp [List.find?_cons, hb, hp]
    · have hb : (lowerStr p.1 == lowerStr n) = false := beq_eq_false_iff_ne.mpr hp
      unfold hGet
      simp only [List.find?_cons, hb, if_pos, if_neg hp, cond_false, List.nil_append]
      exact ih

theorem hHas_hAdd (h : Headers) (m v n : String) :
    hHas (hAdd h m v) n = (hHas h n || (lowerStr n == lowerStr m)) := by
  cases hc : (hHas h n || (lowerStr n == lowerStr m)) with
  | true =>
    rw [hHas_true_iff, hGetAll_hAdd]
    rcases Bool.or_eq_true_iff.mp hc with hl | hr
    · intro hx
      rcases List.append_eq_nil.mp hx with ⟨h1, _⟩
      exact (hHas_true_iff h n).mp hl h1
    · rw [beq_iff_eq] at hr
      simp [hr]
  | false =>
    rcases Bool.or_eq_false_iff.mp hc with ⟨hl, hr⟩
    rw [hHas_false_iff, hGetAll_hAdd, (hHas_false_iff h n).mp hl]
    rw [beq_eq_false_iff_ne] at hr
    simp [hr]

theorem hHas_gDel (h : Headers) (m n : String) :
    hHas (gDel h m) n = if lowerStr n = lowerStr m then false else hHas h n := by
  by_cases e : lowerStr n = lowerStr m
  · rw [if_pos e, hHas_false_iff, hGetAll_gDel, if_pos e]
  · rw [if_neg e]
    cases hc : hHas h n with
    | true => rw [hHas_true_iff, hGetAll_gDel, if_neg e]; exact (hHas_true_iff h n).mp hc
    | false => rw [hHas_false_iff, hGetAll_gDel, if_neg e]; exact (hHas_false_iff h n).mp hc

theorem hHas_gSet (h : Headers) (m v n : String) :
    hHas (gSet h m v) n = if lowerStr n = lowerStr m then true else hHas h n := by
  by_cases e : lowerStr n = lowerStr m
  · rw [if_pos e, hHas_true_iff, hGetAll_gSet, if_pos e]
    simp
  · rw [if_neg e]
    cases hc : hHas h n with
    | true => rw [hHas_true_iff, hGetAll_gSet, if_neg e]; exact (hHas_true_iff h n).mp hc
    | false => rw [hHas_false_iff, hGetAll_gSet, if_neg e]; exact (hHas_false_iff h n).mp hc

/-- The pre-signing header pipeline as a pure header transform, for proofs. -/
def modifyHeadersFn (token : Option String) (psd : Bool) (ts : String) (h : Headers) : Headers :=
  let h1 := gDel h "Authorization"
  let h2 :=
    if hHas h1 "Date" then
      gDel (hAdd (hDel h1 "Date") "Date" (formatdateOfTimestamp ts)) "X-Amz-Date"
    else hAdd (gDel h1 "X-Amz-Date") "X-Amz-Date" ts
  let h3 := match token with | some t => gSet h2 "X-Amz-Security-Token" t | Option.none => h2
  if ¬ psd then gSet h3 "X-Amz-Content-SHA256" UNSIGNED_PAYLOAD else h3

theorem modify_headers_eq (c : Credentials) (r : Request) :
    (SigV4Auth._modify_request_before_signing c r).headers =
      modifyHeadersFn c.token ((r.context.payload_signing_enabled).getD true)
        (SigV4Auth.ctxTimestamp r) r.headers := rfl

/-- The per-name effect of the pre-signing header pipeline. -/
def modifyGetAllSpec (token : Option String) (psd : Bool) (ts : String) (h : Headers) (n : String) : List String :=
  if lowerStr n = lowerStr "Authorization" then []
  else if lowerStr n = lowerStr "Date" then
    (if hHas h "Date" then [formatdateOfTimestamp ts] else [])
  else if lowerStr n = lowerStr "X-Amz-Date" then
    (if hHas h "Date" then [] else [ts])
  else if lowerStr n = lowerStr "X-Amz-Security-Token" then
    (match token with | some t => [t] | Option.none => hGetAll h n)
  else if lowerStr n = lowerStr "X-Amz-Content-SHA256" then
    (if psd then hGetAll h n else [UNSIGNED_PAYLOAD])
  else hGetAll h n

theorem hGetAll_modifyFn (token : Option String) (psd : Bool) (ts : String) (h : Headers) (n : String) :
    hGetAll (modifyHeadersFn token psd ts h) n = modifyGetAllSpec token psd ts h n := by
  have hd : hHas (gDel h "Authorization") "Date" = hHas h "Date" := by
    rw [hHas_gDel, if_neg (by decide)]
  have L1 : lowerStr "Authorization" = "authorization" := by decide
  have L2 : lowerStr "Date" = "date" := by decide
  have L3 : lowerStr "X-Amz-Date" = "x-amz-date" := by decide
  have L4 : lowerStr "X-Amz-Security-Token" = "x-amz-security-token" := by decide
  have L5 : lowerStr "X-Amz-Content-SHA256" = "x-amz-content-sha256" := by decide
  have hDateNil : ∀ m : String, hHas h "Date" = false → lowerStr m = "date" → hGetAll h m = [] := by
    intro m hf he
    rw [hGetAll_congr h (show lowerStr m = lowerStr "Date" from by rw [he, L2])]
    exact (hHas_false_iff h "Date").mp hf
  unfold modifyHeadersFn modifyGetAllSpec
  cases hDate : hHas h "Date" <;> cases token <;> cases hpsd : psd <;>
    simp only [hd, hDate, hpsd, Bool.false_eq_true, Bool.true_eq_false, if_true, if_false,
      ite_true, ite_false, not_true, not_false_iff, Bool.not_true, Bool.not_false,
      hGetAll_gSet, hGetAll_gDel, hGetAll_hAdd, hGetAll_hDel, L1, L2, L3, L4, L5] <;>
    split_ifs <;> simp_all [hDateNil]

theorem payload_total (s : V4Signer) (r : Request) (h : r.body.noFail) :
    ∃ pv, SigV4Auth.payload s r = Except.ok (pv, r.body) := by
  by_cases h1 : SigV4Auth._is_streaming_checksum_payload r = true
  · exact ⟨STREAMING_UNSIGNED_PAYLOAD_TRAILER, by simp [SigV4Auth.payload, h1]⟩
  · rw [Bool.not_eq_true] at h1
    by_cases h2 : shouldSignDispatch s r = true
    · cases hb : r.body with
      | absent => exact ⟨EMPTY_SHA256_HASH, by simp [SigV4Auth.payload, h1, h2, hb]⟩
      | bytes bs =>
        by_cases hbs : bs = []
        · exact ⟨EMPTY_SHA256_HASH, by simp [SigV4Auth.payload, h1, h2, hb, hbs]⟩
        · exact ⟨sha256Hex bs, by simp [SigV4Auth.payload, h1, h2, hb, hbs]⟩
      | reader rd =>
        cases rd with
        | mk d p fa =>
          rw [hb] at h
          have hfa : fa = Option.none := h
          subst hfa
          exact ⟨sha256Hex (d.drop p), by rw [payload_reader_hash s r d p hb h1 h2]⟩

    · rw [Bool.not_eq_true] at h2
      exact ⟨UNSIGNED_PAYLOAD, by simp [SigV4Auth.payload, h1, h2]⟩

theorem payloadDispatch_total (s : V4Signer) (r : Request) (h : r.body.noFail) :
    ∃ pv, payloadDispatch s r = Except.ok (pv, r.body) := by
  unfold payloadDispatch
  by_cases hu : s.kind.unsignedPayloadAlways = true
  · exact ⟨UNSIGNED_PAYLOAD, by simp [hu]⟩
  · rw [Bool.not_eq_true] at hu
    simpa [hu] using payload_total s r h

theorem canonical_request_total (s : V4Signer) (r : Request) (h : r.body.noFail) :
    ∃ cr, SigV4Auth.canonical_request s r = Except.ok (cr, r.body) := by
  unfold SigV4Auth.canonical_request
  by_cases hx : hHas r.headers "X-Amz-Content-SHA256" = true
  · exact ⟨"\n".intercalate
      [upperStr r.method, normalizePathDispatch s (urlsplit r.url).path,
       SigV4Auth.canonical_query_string r,
       SigV4Auth.canonical_headers (SigV4Auth.headers_to_sign r) ++ "\n",
       SigV4Auth.signed_headers (SigV4Auth.headers_to_sign r),
       (hGet r.headers "X-Amz-Content-SHA256").getD ""], by simp [hx]⟩
  · rcases payloadDispatch_total s r h with ⟨pv, hpv⟩
    rw [Bool.not_eq_true] at hx
    exact ⟨"\n".intercalate
      [upperStr r.method, normalizePathDispatch s (urlsplit r.url).path,
       SigV4Auth.canonical_query_string r,
       SigV4Auth.canonical_headers (SigV4Auth.headers_to_sign r) ++ "\n",
       SigV4Auth.signed_headers (SigV4Auth.headers_to_sign r), pv], by simp [hx, hpv]⟩

/-- The timestamp-fixing step at the top of add_auth. -/
def tsUpdate (now : String) (r : Request) : Request :=
  { r with context := { r.context with timestamp := some now } }

/-- The canonical-request string of a request whose body hashing succeeds. -/
def canonicalStringOf (s : V4Signer) (r : Request) : String :=
  match SigV4Auth.canonical_request s r with
  | .ok (cr, _) => cr
  | .error _ => ""

theorem modify_body (c : Credentials) (r : Request) :
    (SigV4Auth._modify_request_before_signing c r).body = r.body := rfl

theorem modify_fields (c : Credentials) (r : Request) :
    (SigV4Auth._modify_request_before_signing c r).method = r.method ∧
    (SigV4Auth._modify_request_before_signing c r).url = r.url ∧
    (SigV4Auth._modify_request_before_signing c r).params = r.params ∧
    (SigV4Auth._modify_request_before_signing c r).data = r.data ∧
    (SigV4Auth._modify_request_before_signing c r).context = r.context :=
  ⟨rfl, rfl, rfl, rfl, rfl⟩

theorem add_auth_v4_unfold (s : V4Signer) (c : Credentials) (now : String) (r : Request)
    (hk : s.kind = V4Kind.v4) (hc : s.credentials = some c) (hnf : r.body.noFail) :
    SigV4Auth.add_auth s now r =
      SignResult.ok (SigV4Auth._inject_signature_to_request s c
        (SigV4Auth._modify_request_before_signing c (tsUpdate now r))
        (SigV4Auth.signature c s (SigV4Auth._modify_request_before_signing c (tsUpdate now r))
          (SigV4Auth.string_to_sign s (SigV4Auth._modify_request_before_signing c (tsUpdate now r))
            (canonicalStringOf s (SigV4Auth._modify_request_before_signing c (tsUpdate now r)))))) := by
  have hmb : (SigV4Auth._modify_request_before_signing c (tsUpdate now r)).body.noFail := by
    rw [modify_body]
    exact hnf
  rcases canonical_request_total s (SigV4Auth._modify_request_before_signing c (tsUpdate now r)) hmb
    with ⟨cr, hcr⟩
  have hcs : canonicalStringOf s (SigV4Auth._modify_request_before_signing c (tsUpdate now r)) = cr := by
    unfold canonicalStringOf
    rw [hcr]
  unfold SigV4Auth.add_auth
  rw [hc]
  have hmd : modifyDispatch s c (tsUpdate now r) =
      SignResult.ok (SigV4Auth._modify_request_before_signing c (tsUpdate now r)) := by
    unfold modifyDispatch
    rw [hk]
  have hij : ∀ X Y, injectDispatch s c X Y = SigV4Auth._inject_signature_to_request s c X Y := by
    intro X Y
    unfold injectDispatch
    rw [hk]
    exact rfl
  simp only [tsUpdate] at hmd hcr hcs ⊢
  rw [hmd]
  simp only []
  rw [hcr]
  simp only []
  rw [hcs, hij]

/-- C2: the SigV4 payload hash is selected by the decision table evaluated in order:
in-trailer checksum gives the streaming constant; a policy that disables payload signing
gives the unsigned constant; a present seekable body gives the hex SHA-256 of its bytes
from the current position with the position restored; a nonempty byte body gives its hex
SHA-256; otherwise the precomputed empty-string digest, which equals the SHA-256 of no
bytes. -/
theorem c2_payload_decision_table (s : V4Signer) (r : Request) (hk : s.kind = V4Kind.v4) :
    (SigV4Auth._is_streaming_checksum_payload r = true →
      SigV4Auth.payload s r = Except.ok (STREAMING_UNSIGNED_PAYLOAD_TRAILER, r.body)) ∧
    (SigV4Auth._is_streaming_checksum_payload r = false →
      SigV4Auth._should_sha256_sign_payload r = false →
      SigV4Auth.payload s r = Except.ok (UNSIGNED_PAYLOAD, r.body)) ∧
    (∀ d p, SigV4Auth._is_streaming_checksum_payload r = false →
      SigV4Auth._should_sha256_sign_payload r = true →
      r.body = Body.reader ⟨d, p, Option.none⟩ →
      SigV4Auth.payload s r = Except.ok (sha256Hex (d.drop p), r.body)) ∧
    (∀ bs, SigV4Auth._is_streaming_checksum_payload r = false →
      SigV4Auth._should_sha256_sign_payload r = true →
      r.body = Body.bytes bs → bs ≠ [] →
      SigV4Auth.payload s r = Except.ok (sha256Hex bs, r.body)) ∧
    (SigV4Auth._is_streaming_checksum_payload r = false →
      SigV4Auth._should_sha256_sign_payload r = true →
      (r.body = Body.absent ∨ r.body = Body.bytes []) →
      SigV4Auth.payload s r = Except.ok (EMPTY_SHA256_HASH, r.body)) ∧
    EMPTY_SHA256_HASH = sha256Hex (utf8 "") := by
  have hdisp : shouldSignDispatch s r = SigV4Auth._should_sha256_sign_payload r := by
    unfold shouldSignDispatch
    rw [hk]
    exact if_neg (by simp [V4Kind.usesS3Policy])
  refine ⟨?_, ?_, ?_, ?_, ?_, ?_⟩
  · intro h1
    simp [SigV4Auth.payload, h1]
  · intro h1 h2
    rw [← hdisp] at h2
    simp [SigV4Auth.payload, h1, h2]
  · intro d p h1 h2 hb
    rw [← hdisp] at h2
    rw [payload_reader_hash s r d p hb h1 h2, hb]
  · intro bs h1 h2 hb hbs
    rw [← hdisp] at h2
    simp [SigV4Auth.payload, h1, h2, hb, hbs]
  · intro h1 h2 hb
    rw [← hdisp] at h2
    rcases hb with hb | hb <;> simp [SigV4Auth.payload, h1, h2, hb]
  · exact (by decide)

def c2Signer : V4Signer := ⟨.v4, Option.none, "s3", "us-east-1", 3600⟩

def c2Req : Request :=
  ⟨"PUT", "https://h/", [], [], .str "", .absent,
   { emptyContext with checksum_request_algorithm := ChecksumAlgo.dict (some "trailer") "crc32" }⟩

/-- C2 witness: the streaming-trailer case at a concrete request. -/
theorem c2_payload_decision_table_witness :
    c2Signer.kind = V4Kind.v4 ∧ SigV4Auth._is_streaming_checksum_payload c2Req = true ∧
      SigV4Auth.payload c2Signer c2Req =
        Except.ok (STREAMING_UNSIGNED_PAYLOAD_TRAILER, c2Req.body) :=
  ⟨rfl, by decide, (c2_payload_decision_table c2Signer c2Req rfl).1 (by decide)⟩

/-- C3 amended: on the success path of add_auth, a fault-free seekable body comes back with
its position restored. -/
theorem c3_position_restored (s : V4Signer) (c : Credentials) (now : String) (r : Request)
    (d : List Nat) (p : Nat) (hk : s.kind = V4Kind.v4) (hc : s.credentials = some c)
    (hb : r.body = Body.reader ⟨d, p, Option.none⟩) :
    ∃ r', SigV4Auth.add_auth s now r = SignResult.ok r' ∧
      r'.body = Body.reader ⟨d, p, Option.none⟩ := by
  have hnf : r.body.noFail := by rw [hb]; exact rfl
  refine ⟨_, add_auth_v4_unfold s c now r hk hc hnf, ?_⟩
  show (SigV4Auth._inject_signature_to_request s c _ _).body = _
  have hi : ∀ X Y, (SigV4Auth._inject_signature_to_request s c X Y).body = X.body := fun _ _ => rfl
  rw [hi, modify_body]
  exact hb

def c3Signer : V4Signer := ⟨.v4, some ⟨"AK", "SK", Option.none⟩, "svc", "us-east-1", 3600⟩

def c3Req : Request :=
  ⟨"GET", "https://h/", [], [], .str "", .reader ⟨[65, 66], 0, some 1⟩, emptyContext⟩

/-- C3 counterexample: when a read fails during hashing, add_auth raises and the reader is
left at position 2, not restored to the original position 0 — there is no restore on the
failure path. -/
theorem c3_counterexample :
    SigV4Auth.add_auth c3Signer "20150830T123600Z" c3Req =
      SignResult.err SigErr.readError
        { c3Req with
          context := { c3Req.context with timestamp := some "20150830T123600Z" },
          headers := [("X-Amz-Date", "20150830T123600Z")],
          body := Body.reader ⟨[65, 66], 2, some 0⟩ } ∧
      bodyPos (SigV4Auth.add_auth c3Signer "20150830T123600Z" c3Req).req.body = 2 ∧
      bodyPos c3Req.body = 0 := by
  refine ⟨by decide, by decide, by decide⟩

/-- C3 witness for the amended theorem: a concrete reader at position 1 is restored. -/
theorem c3_position_restored_witness :
    c3Signer.kind = V4Kind.v4 ∧ c3Signer.credentials = some ⟨"AK", "SK", Option.none⟩ ∧
      (∃ r', SigV4Auth.add_auth c3Signer "20150830T123600Z"
          { c3Req with body := Body.reader ⟨[65, 66], 1, Option.none⟩ } = SignResult.ok r' ∧
        r'.body = Body.reader ⟨[65, 66], 1, Option.none⟩) :=
  ⟨rfl, rfl, c3_position_restored c3Signer ⟨"AK", "SK", Option.none⟩ "20150830T123600Z"
    { c3Req with body := Body.reader ⟨[65, 66], 1, Option.none⟩ } [65, 66] 1 rfl rfl rfl⟩

/-- C4 amended: the schemes that check credentials raise NoCredentials before any mutation
of the request; the returned error carries the untouched request. -/
theorem c4_no_credentials_first (s : V4Signer) (now nowIso nowRfc : String) (r : Request)
    (h : s.credentials = Option.none) :
    SigV4Auth.add_auth s now r = SignResult.err SigErr.noCredentials r ∧
      SigV2Auth.add_auth Option.none nowIso r = SignResult.err SigErr.noCredentials r ∧
      SigV3Auth.add_auth Option.none nowRfc r = SignResult.err SigErr.noCredentials r := by
  refine ⟨?_, rfl, rfl⟩
  unfold SigV4Auth.add_auth
  rw [h]

/-- C4 witness: the header signer with unset credentials fails cleanly on a concrete
request. -/
theorem c4_no_credentials_first_witness :
    (V4Signer.mk V4Kind.v4 Option.none "iam" "us-east-1" 3600).credentials = Option.none ∧
      SigV4Auth.add_auth ⟨V4Kind.v4, Option.none, "iam", "us-east-1", 3600⟩ "T" goldenRequest =
        SignResult.err SigErr.noCredentials goldenRequest :=
  ⟨rfl, (c4_no_credentials_first ⟨V4Kind.v4, Option.none, "iam", "us-east-1", 3600⟩
    "T" "T" "T" goldenRequest rfl).1⟩

def c4Req : Request := ⟨"POST", "https://s3.amazonaws.com/", [], [], .str "", .absent, emptyContext⟩

/-- C4 counterexample: the presigned-POST signer never checks credentials: with credentials
unset it first writes context.timestamp (an observable mutation) and then raises
AttributeError, not NoCredentials. -/
theorem c4_counterexample :
    S3SigV4PostAuth.add_auth Option.none "us-east-1" "s3" "20150830T123600Z" c4Req =
      SignResult.err SigErr.attributeError
        { c4Req with context := { c4Req.context with timestamp := some "20150830T123600Z" } } ∧
      ({ c4Req with context := { c4Req.context with timestamp := some "20150830T123600Z" } } ≠ c4Req) ∧
      SigErr.attributeError ≠ SigErr.noCredentials := by
  refine ⟨by decide, by decide, by decide⟩

/-- C6 amended: the resolver walks the list returning the first registered tag, except that
the noAuth trait short-circuits and returns its unregistered tag immediately; unknown
traits raise UnknownSignatureVersion at once; a known but unregistered trait is skipped;
exhaustion raises UnsupportedSignatureVersion. -/
theorem c6_resolver_behavior :
    resolve_auth_type [] = Except.error (ResolveErr.unsupported []) ∧
    (∀ rest, resolve_auth_type ("smithy.api#noAuth" :: rest) = Except.ok "none") ∧
    (∀ l t rest, dGet AUTH_TYPE_TO_SIGNATURE_VERSION t = Option.none →
      resolve_auth_type.go l (t :: rest) = Except.error (ResolveErr.unknown t)) ∧
    (∀ l t sv rest, t ≠ "smithy.api#noAuth" → dGet AUTH_TYPE_TO_SIGNATURE_VERSION t = some sv →
      AUTH_TYPE_MAPS.contains sv = true →
      resolve_auth_type.go l (t :: rest) = Except.ok sv) ∧
    (∀ l t sv rest, t ≠ "smithy.api#noAuth" → dGet AUTH_TYPE_TO_SIGNATURE_VERSION t = some sv →
      AUTH_TYPE_MAPS.contains sv = false →
      resolve_auth_type.go l (t :: rest) = resolve_auth_type.go l rest) := by
  refine ⟨rfl, fun rest => rfl, ?_, ?_, ?_⟩
  · intro l t rest hn
    have ht : t ≠ "smithy.api#noAuth" := by
      intro he
      rw [he] at hn
      simp [dGet, AUTH_TYPE_TO_SIGNATURE_VERSION, List.find?] at hn
    rw [resolve_go_unfold, if_neg ht, hn]
  · intro l t sv rest ht hsv hreg
    rw [resolve_go_unfold, if_neg ht, hsv]
    exact if_pos hreg
  · intro l t sv rest ht hsv hreg
    rw [resolve_go_unfold, if_neg ht, hsv]
    refine if_neg (fun hmem => ?_)
    rw [hreg] at hmem
    cases hmem

/-- C6 witness: a registered trait resolves to its tag. -/
theorem c6_resolver_behavior_witness :
    dGet AUTH_TYPE_TO_SIGNATURE_VERSION "aws.auth#sigv4" = some "v4" ∧
      AUTH_TYPE_MAPS.contains "v4" = true ∧
      resolve_auth_type.go ["aws.auth#sigv4"] ["aws.auth#sigv4"] = Except.ok "v4" :=
  ⟨by decide, by decide,
    c6_resolver_behavior.2.2.2.1 ["aws.auth#sigv4"] "aws.auth#sigv4" "v4" []
      (by decide) (by decide) (by decide)⟩

/-- C6 counterexample: the claim requires the returned tag to be present in the registry
and an exhausted scan to raise, but resolving the noAuth trait alone returns the tag
"none" which the registry does not contain. -/
theorem c6_counterexample :
    resolve_auth_type ["smithy.api#noAuth"] = Except.ok "none" ∧
      AUTH_TYPE_MAPS.contains "none" = false := by
  refine ⟨rfl, by decide⟩

theorem inject_headers (s : V4Signer) (c : Credentials) (X : Request) (Y : String) :
    (SigV4Auth._inject_signature_to_request s c X Y).headers =
      hAdd X.headers "Authorization"
        (String.intercalate ", " ["AWS4-HMAC-SHA256 Credential=" ++ SigV4Auth.scope c s X,
          "SignedHeaders=" ++ SigV4Auth.signed_headers (SigV4Auth.headers_to_sign X),
          "Signature=" ++ Y]) := rfl

theorem modifySpec_date (tok : Option String) (psd : Bool) (ts : String) (h : Headers) :
    modifyGetAllSpec tok psd ts h "Date" =
      (if hHas h "Date" then [formatdateOfTimestamp ts] else []) := by
  unfold modifyGetAllSpec
  rw [if_neg (by decide), if_pos rfl]

theorem modifySpec_amzdate (tok : Option String) (psd : Bool) (ts : String) (h : Headers) :
    modifyGetAllSpec tok psd ts h "X-Amz-Date" = (if hHas h "Date" then [] else [ts]) := by
  unfold modifyGetAllSpec
  rw [if_neg (by decide), if_neg (by decide), if_pos rfl]

/-- C7: after header signing with the context timestamp fixed to `now`, a request that had
a Date header carries exactly one Date header holding the RFC 2822 rendering of `now` and
no X-Amz-Date header; otherwise it carries exactly one X-Amz-Date header holding `now`
literally and no Date header. -/
theorem c7_date_header_rule (s : V4Signer) (c : Credentials) (now : String) (r : Request)
    (hk : s.kind = V4Kind.v4) (hc : s.credentials = some c) (hnf : r.body.noFail) :
    ∃ r', SigV4Auth.add_auth s now r = SignResult.ok r' ∧
      (hHas r.headers "Date" = true →
        hGetAll r'.headers "Date" = [formatdateOfTimestamp now] ∧
        hGetAll r'.headers "X-Amz-Date" = []) ∧
      (hHas r.headers "Date" = false →
        hGetAll r'.headers "X-Amz-Date" = [now] ∧
        hGetAll r'.headers "Date" = []) := by
  refine ⟨_, add_auth_v4_unfold s c now r hk hc hnf, ?_, ?_⟩ <;> intro hD <;> constructor <;>
    (rw [inject_headers, hGetAll_hAdd, if_neg (by decide), List.append_nil,
       modify_headers_eq, hGetAll_modifyFn]
     first
       | rw [modifySpec_date]
       | rw [modifySpec_amzdate]) <;>
    (have hhd : (tsUpdate now r).headers = r.headers := rfl
     have hts : SigV4Auth.ctxTimestamp (tsUpdate now r) = now := rfl
     rw [hhd, hts, hD]) <;> rfl

def c7Req : Request :=
  ⟨"GET", "https://h/", [("Date", "Mon, 01 Jan 2001 00:00:00 GMT")], [], .str "", .absent,
   emptyContext⟩

/-- C7 witness: a concrete request with a Date header keeps Date (rewritten from the fixed
timestamp) and carries no X-Amz-Date. -/
theorem c7_date_header_rule_witness :
    goldenSigner.kind = V4Kind.v4 ∧ c7Req.body.noFail ∧
      (∃ r', SigV4Auth.add_auth goldenSigner "20150830T123600Z" c7Req = SignResult.ok r' ∧
        (hHas c7Req.headers "Date" = true →
          hGetAll r'.headers "Date" = [formatdateOfTimestamp "20150830T123600Z"] ∧
          hGetAll r'.headers "X-Amz-Date" = []) ∧
        (hHas c7Req.headers "Date" = false →
          hGetAll r'.headers "X-Amz-Date" = ["20150830T123600Z"] ∧
          hGetAll r'.headers "Date" = [])) :=
  ⟨rfl, trivial, c7_date_header_rule goldenSigner
    ⟨"AKIDEXAMPLE", "wJalrXUtnFEMI/K7MDENG+bPxRfiCYEXAMPLEKEY", Option.none⟩
    "20150830T123600Z" c7Req rfl rfl trivial⟩

/-- The conditional session-token header step of the S3 Express overlay. -/
def sessionStep (tok : String) (h : Headers) : Headers :=
  if ¬ hHas h "x-amz-s3session-token" then hAdd h "x-amz-s3session-token" tok else h

theorem s3_modify_unfold (s : V4Signer) (c : Credentials) (r : Request) (hnf : r.body.noFail) :
    ∃ pv, S3SigV4Auth._modify_request_before_signing s c r =
      SignResult.ok { SigV4Auth._modify_request_before_signing c r with
        headers := hAdd (gDel (SigV4Auth._modify_request_before_signing c r).headers
          "X-Amz-Content-SHA256") "X-Amz-Content-SHA256" pv } := by
  have h' : ({ SigV4Auth._modify_request_before_signing c r with
      headers := gDel (SigV4Auth._modify_request_before_signing c r).headers
        "X-Amz-Content-SHA256" } : Request).body.noFail := by
    show (SigV4Auth._modify_request_before_signing c r).body.noFail
    rw [modify_body]
    exact hnf
  rcases payload_total s _ h' with ⟨pv, hpv⟩
  refine ⟨pv, ?_⟩
  unfold S3SigV4Auth._modify_request_before_signing
  simp only []
  rw [hpv]

theorem add_auth_s3e_headers (s : V4Signer) (c : Credentials) (now : String) (r : Request)
    (hk : s.kind = V4Kind.s3express) (hc : s.credentials = some c) (hnf : r.body.noFail) :
    ∃ pv av r', SigV4Auth.add_auth s now r = SignResult.ok r' ∧
      r'.headers = hAdd (gDel (sessionStep (c.token.getD "")
        (hAdd (gDel (SigV4Auth._modify_request_before_signing c (tsUpdate now r)).headers
          "X-Amz-Content-SHA256") "X-Amz-Content-SHA256" pv)) "X-Amz-Security-Token")
        "Authorization" av := by
  have hnf0 : (tsUpdate now r).body.noFail := hnf
  rcases s3_modify_unfold s c (tsUpdate now r) hnf0 with ⟨pv, hs3⟩
  have hs3e : S3ExpressAuth._modify_request_before_signing s c (tsUpdate now r) =
      SignResult.ok { SigV4Auth._modify_request_before_signing c (tsUpdate now r) with
        headers := gDel (sessionStep (c.token.getD "")
          (hAdd (gDel (SigV4Auth._modify_request_before_signing c (tsUpdate now r)).headers
            "X-Amz-Content-SHA256") "X-Amz-Content-SHA256" pv)) "X-Amz-Security-Token" } := by
    unfold S3ExpressAuth._modify_request_before_signing
    rw [hs3]
    simp only [sessionStep, gDel]
  have hmd : modifyDispatch s c (tsUpdate now r) =
      S3ExpressAuth._modify_request_before_signing s c (tsUpdate now r) := by
    unfold modifyDispatch
    rw [hk]
  set R3 : Request := { SigV4Auth._modify_request_before_signing c (tsUpdate now r) with
    headers := gDel (sessionStep (c.token.getD "")
      (hAdd (gDel (SigV4Auth._modify_request_before_signing c (tsUpdate now r)).headers
        "X-Amz-Content-SHA256") "X-Amz-Content-SHA256" pv)) "X-Amz-Security-Token" } with hR3
  have hnf3 : R3.body.noFail := by
    rw [hR3]
    show (SigV4Auth._modify_request_before_signing c (tsUpdate now r)).body.noFail
    rw [modify_body]
    exact hnf
  rcases canonical_request_total s R3 hnf3 with ⟨cr, hcr⟩
  have hij : ∀ X Y, injectDispatch s c X Y = SigV4Auth._inject_signature_to_request s c X Y := by
    intro X Y
    unfold injectDispatch
    rw [hk]
    exact rfl
  refine ⟨pv,
    String.intercalate ", " ["AWS4-HMAC-SHA256 Credential=" ++ SigV4Auth.scope c s R3,
      "SignedHeaders=" ++ SigV4Auth.signed_headers (SigV4Auth.headers_to_sign R3),
      "Signature=" ++ SigV4Auth.signature c s R3 (SigV4Auth.string_to_sign s R3 cr)],
    SigV4Auth._inject_signature_to_request s c R3
      (SigV4Auth.signature c s R3 (SigV4Auth.string_to_sign s R3 cr)), ?_, ?_⟩
  · unfold SigV4Auth.add_auth
    rw [hc]
    simp only [tsUpdate] at hmd hs3e hcr ⊢
    rw [hmd, hs3e]
    simp only []
    rw [hcr]
    simp only []
    rw [hij]
    exact rfl
  · rw [inject_headers, hR3]

/-- C10: in the S3 Express header flow, add_auth preserves a pre-existing
x-amz-s3session-token header unchanged, sets it from the credentials token only when
absent, and the generic X-Amz-Security-Token header is absent from the signed request. -/
theorem c10_s3express_session_token (s : V4Signer) (c : Credentials) (t now : String) (r : Request)
    (hk : s.kind = V4Kind.s3express) (hc : s.credentials = some c) (ht : c.token = some t)
    (hnf : r.body.noFail) :
    ∃ r', SigV4Auth.add_auth s now r = SignResult.ok r' ∧
      (hHas r.headers "x-amz-s3session-token" = true →
        hGetAll r'.headers "x-amz-s3session-token" = hGetAll r.headers "x-amz-s3session-token") ∧
      (hHas r.headers "x-amz-s3session-token" = false →
        hGetAll r'.headers "x-amz-s3session-token" = [t]) ∧
      hHas r'.headers "X-Amz-Security-Token" = false := by
  rcases add_auth_s3e_headers s c now r hk hc hnf with ⟨pv, av, r', hok, hhd⟩
  have base : hGetAll (hAdd (gDel (SigV4Auth._modify_request_before_signing c
      (tsUpdate now r)).headers "X-Amz-Content-SHA256") "X-Amz-Content-SHA256" pv)
      "x-amz-s3session-token" = hGetAll r.headers "x-amz-s3session-token" := by
    rw [hGetAll_hAdd, if_neg (by decide), List.append_nil, hGetAll_gDel, if_neg (by decide),
      modify_headers_eq, hGetAll_modifyFn]
    unfold modifyGetAllSpec
    rw [if_neg (by decide), if_neg (by decide), if_neg (by decide)]
    rw [if_neg (by decide), if_neg (by decide)]
    rfl
  refine ⟨r', hok, ?_, ?_, ?_⟩
  · intro hD
    have hM2 : hHas (hAdd (gDel (SigV4Auth._modify_request_before_signing c
        (tsUpdate now r)).headers "X-Amz-Content-SHA256") "X-Amz-Content-SHA256" pv)
        "x-amz-s3session-token" = true := by
      rw [hHas_true_iff, base]
      exact (hHas_true_iff r.headers "x-amz-s3session-token").mp hD
    rw [hhd, hGetAll_hAdd, if_neg (by decide), List.append_nil, hGetAll_gDel,
      if_neg (by decide)]
    unfold sessionStep
    rw [if_neg (by simp [hM2])]
    exact base
  · intro hD
    have hM2 : hHas (hAdd (gDel (SigV4Auth._modify_request_before_signing c
        (tsUpdate now r)).headers "X-Amz-Content-SHA256") "X-Amz-Content-SHA256" pv)
        "x-amz-s3session-token" = false := by
      rw [hHas_false_iff, base]
      exact (hHas_false_iff r.headers "x-amz-s3session-token").mp hD
    rw [hhd, hGetAll_hAdd, if_neg (by decide), List.append_nil, hGetAll_gDel,
      if_neg (by decide)]
    unfold sessionStep
    rw [if_pos (by simp [hM2]), hGetAll_hAdd, if_pos rfl, base,
      (hHas_false_iff r.headers "x-amz-s3session-token").mp hD, ht]
    rfl
  · rw [hhd, hHas_hAdd, hHas_gDel, if_pos rfl]
    decide

def c10Signer : V4Signer :=
  ⟨V4Kind.s3express, some ⟨"AK", "SK", some "SESSTOK"⟩, "s3express", "us-east-1", 300⟩

def c10Req : Request :=
  ⟨"GET", "https://bucket.s3express.amazonaws.com/", [("x-amz-s3session-token", "OLD")],
   [], .str "", .absent, emptyContext⟩

/-- C10 witness: a pre-existing session-token header survives signing unchanged and the
generic security-token header is absent. -/
theorem c10_s3express_session_token_witness :
    c10Signer.kind = V4Kind.s3express ∧
      (⟨"AK", "SK", some "SESSTOK"⟩ : Credentials).token = some "SESSTOK" ∧
      (∃ r', SigV4Auth.add_auth c10Signer "20240101T000000Z" c10Req = SignResult.ok r' ∧
        (hHas c10Req.headers "x-amz-s3session-token" = true →
          hGetAll r'.headers "x-amz-s3session-token" =
            hGetAll c10Req.headers "x-amz-s3session-token") ∧
        (hHas c10Req.headers "x-amz-s3session-token" = false →
          hGetAll r'.headers "x-amz-s3session-token" = ["SESSTOK"]) ∧
        hHas r'.headers "X-Amz-Security-Token" = false) :=
  ⟨rfl, rfl, c10_s3express_session_token c10Signer ⟨"AK", "SK", some "SESSTOK"⟩ "SESSTOK"
    "20240101T000000Z" c10Req rfl rfl rfl trivial⟩

theorem filterComm {A : Type} (p q : A → Bool) (l : List A) :
    (l.filter p).filter q = (l.filter q).filter p := by
  induction l with
  | nil => rfl
  | cons a t ih =>
    by_cases hp : p a = true <;> by_cases hq : q a = true <;>
      simp [List.filter_cons, hp, hq, ih]

theorem filter_filter_of_imp {A : Type} (p q : A → Bool) (l : List A)
    (himp : ∀ a, q a = true → p a = true) :
    (l.filter p).filter q = l.filter q := by
  induction l with
  | nil => rfl
  | cons a t ih =>
    by_cases hq : q a = true
    · have hp := himp a hq
      simp [List.filter_cons, hp, hq, ih]
    · by_cases hp : p a = true <;> simp [List.filter_cons, hp, hq, ih]

/-- Drop the blacklisted headers; the headers the canonical request may see. -/
def stripBL (h : Headers) : Headers :=
  h.filter (fun p => !(SIGNED_HEADERS_BLACKLIST.contains (lowerStr p.1)))

theorem stripBL_hDel (h : Headers) (n : String) :
    stripBL (hDel h n) = hDel (stripBL h) n := by
  unfold stripBL hDel
  exact filterComm _ _ h

theorem stripBL_hAdd (h : Headers) (n v : String)
    (hn : SIGNED_HEADERS_BLACKLIST.contains (lowerStr n) = false) :
    stripBL (hAdd h n v) = hAdd (stripBL h) n v := by
  unfold stripBL hAdd
  rw [List.filter_append]
  congr 1
  simp only [List.filter_cons, List.filter_nil, hn, Bool.not_false, if_true]

theorem hGetAll_stripBL (h : Headers) (n : String)
    (hn : SIGNED_HEADERS_BLACKLIST.contains (lowerStr n) = false) :
    hGetAll (stripBL h) n = hGetAll h n := by
  unfold hGetAll stripBL
  rw [filter_filter_of_imp]
  intro a ha
  have he : lowerStr a.1 = lowerStr n := of_decide_eq_true ha
  rw [he, hn]
  rfl

theorem hHas_stripBL (h : Headers) (n : String)
    (hn : SIGNED_HEADERS_BLACKLIST.contains (lowerStr n) = false) :
    hHas (stripBL h) n = hHas h n := by
  cases hc : hHas h n with
  | true =>
    rw [hHas_true_iff, hGetAll_stripBL h n hn]
    exact (hHas_true_iff h n).mp hc
  | false =>
    rw [hHas_false_iff, hGetAll_stripBL h n hn]
    exact (hHas_false_iff h n).mp hc

theorem stripBL_gDel (h : Headers) (n : String)
    (hn : SIGNED_HEADERS_BLACKLIST.contains (lowerStr n) = false) :
    stripBL (gDel h n) = gDel (stripBL h) n := by
  unfold gDel
  rw [hHas_stripBL h n hn]
  by_cases hh : hHas h n = true
  · rw [if_pos hh, if_pos hh, stripBL_hDel]
  · rw [Bool.not_eq_true] at hh
    rw [hh]
    simp

theorem stripBL_gSet (h : Headers) (n v : String)
    (hn : SIGNED_HEADERS_BLACKLIST.contains (lowerStr n) = false) :
    stripBL (gSet h n v) = gSet (stripBL h) n v := by
  unfold gSet
  rw [stripBL_hAdd _ _ _ hn, stripBL_gDel h n hn]

theorem stripBL_modifyFn (tok : Option String) (psd : Bool) (ts : String) (h : Headers) :
    stripBL (modifyHeadersFn tok psd ts h) = modifyHeadersFn tok psd ts (stripBL h) := by
  unfold modifyHeadersFn
  have e1 : SIGNED_HEADERS_BLACKLIST.contains (lowerStr "Authorization") = false := by decide
  have e2 : SIGNED_HEADERS_BLACKLIST.contains (lowerStr "Date") = false := by decide
  have e3 : SIGNED_HEADERS_BLACKLIST.contains (lowerStr "X-Amz-Date") = false := by decide
  have e4 : SIGNED_HEADERS_BLACKLIST.contains (lowerStr "X-Amz-Security-Token") = false := by
    decide
  have e5 : SIGNED_HEADERS_BLACKLIST.contains (lowerStr "X-Amz-Content-SHA256") = false := by
    decide
  have hd : hHas (gDel (stripBL h) "Authorization") "Date" =
      hHas (gDel h "Authorization") "Date" := by
    rw [← stripBL_gDel h "Authorization" e1, hHas_stripBL _ "Date" e2]
  simp only []
  rw [hd]
  cases hDate : hHas (gDel h "Authorization") "Date" <;> cases tok <;> cases hpsd : psd <;>
    simp only [hDate, hpsd, Bool.false_eq_true, Bool.true_eq_false, if_true, if_false,
      ite_true, ite_false, not_true, not_false_iff, Bool.not_true, Bool.not_false] <;>
    simp only [stripBL_gSet _ _ _ e4, stripBL_gSet _ _ _ e5, stripBL_gDel _ _ e1,
      stripBL_gDel _ _ e3, stripBL_hAdd _ _ _ e2, stripBL_hAdd _ _ _ e3, stripBL_hDel]

theorem stripBL_cons_pos (p : String × String) (t : Headers)
    (hp : SIGNED_HEADERS_BLACKLIST.contains (lowerStr p.1) = true) :
    stripBL (p :: t) = stripBL t := by
  unfold stripBL
  rw [List.filter_cons, hp]
  rfl

theorem stripBL_cons_neg (p : String × String) (t : Headers)
    (hp : SIGNED_HEADERS_BLACKLIST.contains (lowerStr p.1) = false) :
    stripBL (p :: t) = p :: stripBL t := by
  unfold stripBL
  rw [List.filter_cons, hp]
  rfl

theorem hts_fold (h m : Headers) :
    h.foldl (fun m p =>
      if SIGNED_HEADERS_BLACKLIST.contains (lowerStr p.1) then m
      else hAdd m (lowerStr p.1) p.2) m
    = m ++ (stripBL h).map (fun p => (lowerStr p.1, p.2)) := by
  induction h generalizing m with
  | nil =>
    rw [List.foldl_nil]
    unfold stripBL
    rw [List.filter_nil, List.map_nil, List.append_nil]
  | cons p t ih =>
    rw [List.foldl_cons]
    by_cases hp : SIGNED_HEADERS_BLACKLIST.contains (lowerStr p.1) = true
    · rw [if_pos hp, ih, stripBL_cons_pos p t hp]
    · rw [if_neg hp, ih]
      rw [Bool.not_eq_true] at hp
      rw [stripBL_cons_neg p t hp, List.map_cons]
      unfold hAdd
      rw [List.append_assoc]
      rfl

theorem hts_strip (r : Request) :
    SigV4Auth.headers_to_sign r =
      (let base := (stripBL r.headers).map (fun p => (lowerStr p.1, p.2))
       if hHas base "host" then base else hAdd base "host" (_host_from_url r.url)) := by
  unfold SigV4Auth.headers_to_sign
  rw [hts_fold]
  simp

theorem hts_congr (r1 r2 : Request) (hu : r1.url = r2.url)
    (hs : stripBL r1.headers = stripBL r2.headers) :
    SigV4Auth.headers_to_sign r1 = SigV4Auth.headers_to_sign r2 := by
  rw [hts_strip, hts_strip, hs, hu]

theorem hts_names_not_bl (q : Request) (nm : String)
    (hmem : nm ∈ (SigV4Auth.headers_to_sign q).map (fun p => p.1)) :
    SIGNED_HEADERS_BLACKLIST.contains nm = false := by
  have hbase : ∀ x ∈ ((stripBL q.headers).map (fun p => (lowerStr p.1, p.2))).map
      (fun p => p.1), SIGNED_HEADERS_BLACKLIST.contains x = false := by
    intro x hx
    rw [List.map_map] at hx
    rcases List.mem_map.mp hx with ⟨pp, hp, he⟩
    unfold stripBL at hp
    rcases List.mem_filter.mp hp with ⟨_, hpred⟩
    rw [← he]
    simpa using hpred
  rw [hts_strip] at hmem
  simp only [] at hmem
  by_cases hh : hHas ((stripBL q.headers).map (fun p => (lowerStr p.1, p.2))) "host" = true
  · rw [if_pos hh] at hmem
    exact hbase nm hmem
  · rw [if_neg hh] at hmem
    unfold hAdd at hmem
    rw [List.map_append] at hmem
    rcases List.mem_append.mp hmem with h1 | h1
    · exact hbase nm h1
    · simp at h1
      rw [h1]
      decide

theorem payload_congr_v4 (s : V4Signer) (r1 r2 : Request) (hk : s.kind = V4Kind.v4)
    (hu : r1.url = r2.url) (hb : r1.body = r2.body) (hcx : r1.context = r2.context) :
    SigV4Auth.payload s r1 = SigV4Auth.payload s r2 := by
  have hss : ∀ q : Request, shouldSignDispatch s q = SigV4Auth._should_sha256_sign_payload q := by
    intro q
    unfold shouldSignDispatch
    rw [hk]
    exact rfl
  unfold SigV4Auth.payload
  rw [hss r1, hss r2]
  unfold SigV4Auth._is_streaming_checksum_payload SigV4Auth._should_sha256_sign_payload
  rw [hcx, hu, hb]

theorem hHas_eq_of_strip (h1 h2 : Headers) (n : String)
    (hn : SIGNED_HEADERS_BLACKLIST.contains (lowerStr n) = false)
    (hs : stripBL h1 = stripBL h2) : hHas h1 n = hHas h2 n := by
  rw [← hHas_stripBL h1 n hn, ← hHas_stripBL h2 n hn, hs]

theorem hGet_eq_of_strip (h1 h2 : Headers) (n : String)
    (hn : SIGNED_HEADERS_BLACKLIST.contains (lowerStr n) = false)
    (hs : stripBL h1 = stripBL h2) : hGet h1 n = hGet h2 n := by
  rw [hGet_eq_head, hGet_eq_head, ← hGetAll_stripBL h1 n hn, ← hGetAll_stripBL h2 n hn, hs]

theorem canonical_request_congr (s : V4Signer) (r1 r2 : Request)
    (hk : s.kind = V4Kind.v4)
    (hm : r1.method = r2.method) (hu : r1.url = r2.url) (hp : r1.params = r2.params)
    (hb : r1.body = r2.body) (hcx : r1.context = r2.context)
    (hs : stripBL r1.headers = stripBL r2.headers) :
    SigV4Auth.canonical_request s r1 = SigV4Auth.canonical_request s r2 := by
  have e5 : SIGNED_HEADERS_BLACKLIST.contains (lowerStr "X-Amz-Content-SHA256") = false := by
    decide
  have hhts := hts_congr r1 r2 hu hs
  have hcqs : SigV4Auth.canonical_query_string r1 = SigV4Auth.canonical_query_string r2 := by
    unfold SigV4Auth.canonical_query_string
    rw [hp, hu]
  have hpay := payload_congr_v4 s r1 r2 hk hu hb hcx
  have hpd : payloadDispatch s r1 = payloadDispatch s r2 := by
    unfold payloadDispatch
    rw [hb, hpay]
  unfold SigV4Auth.canonical_request
  rw [hhts, hcqs, hpd, hu, hm, hb,
    hHas_eq_of_strip r1.headers r2.headers _ e5 hs,
    hGet_eq_of_strip r1.headers r2.headers _ e5 hs]

theorem modify_strip (c : Credentials) (r1 r2 : Request)
    (hcx : r1.context = r2.context)
    (hs : stripBL r1.headers = stripBL r2.headers) :
    stripBL (SigV4Auth._modify_request_before_signing c r1).headers =
      stripBL (SigV4Auth._modify_request_before_signing c r2).headers := by
  rw [modify_headers_eq, modify_headers_eq, stripBL_modifyFn, stripBL_modifyFn]
  unfold SigV4Auth.ctxTimestamp
  rw [hs, hcx]

theorem modifySpec_auth (tok : Option String) (psd : Bool) (ts : String) (h : Headers) :
    modifyGetAllSpec tok psd ts h "Authorization" = [] := by
  unfold modifyGetAllSpec
  rw [if_pos rfl]

theorem modify_auth_nil (c : Credentials) (q : Request) :
    hGetAll (SigV4Auth._modify_request_before_signing c q).headers "Authorization" = [] := by
  rw [modify_headers_eq, hGetAll_modifyFn, modifySpec_auth]

theorem hGet_auth_of_inject (s : V4Signer) (c : Credentials) (X : Request) (Y : String)
    (hX : hGetAll X.headers "Authorization" = []) :
    hGet (SigV4Auth._inject_signature_to_request s c X Y).headers "Authorization" =
      some (String.intercalate ", "
        ["AWS4-HMAC-SHA256 Credential=" ++ SigV4Auth.scope c s X,
         "SignedHeaders=" ++ SigV4Auth.signed_headers (SigV4Auth.headers_to_sign X),
         "Signature=" ++ Y]) := by
  rw [inject_headers, hGet_eq_head, hGetAll_hAdd, hX, if_pos rfl]
  rfl

/-- C8: header signing ignores the signed-headers blacklist: two requests agreeing outside
the blacklisted headers (Expect, User-Agent, X-Amzn-Trace-Id, plus case variants) receive
the same Authorization header, and no header selected for signing bears a blacklisted
name. -/
theorem c8_blacklist_headers (s : V4Signer) (c : Credentials) (now : String)
    (r : Request) (h2 : Headers)
    (hk : s.kind = V4Kind.v4) (hc : s.credentials = some c) (hnf : r.body.noFail)
    (hbl : stripBL r.headers = stripBL h2) :
    (∃ r1' r2', SigV4Auth.add_auth s now r = SignResult.ok r1' ∧
      SigV4Auth.add_auth s now { r with headers := h2 } = SignResult.ok r2' ∧
      hGet r1'.headers "Authorization" = hGet r2'.headers "Authorization" ∧
      hGet r1'.headers "Authorization" ≠ Option.none) ∧
    (∀ (q : Request) (nm : String),
      nm ∈ (SigV4Auth.headers_to_sign q).map (fun p => p.1) →
      SIGNED_HEADERS_BLACKLIST.contains nm = false) := by
  constructor
  · have hu1 := add_auth_v4_unfold s c now r hk hc hnf
    have hu2 := add_auth_v4_unfold s c now { r with headers := h2 } hk hc hnf
    refine ⟨_, _, hu1, hu2, ?_, ?_⟩
    · have hsm : stripBL (SigV4Auth._modify_request_before_signing c (tsUpdate now r)).headers =
          stripBL (SigV4Auth._modify_request_before_signing c
            (tsUpdate now { r with headers := h2 })).headers :=
        modify_strip c (tsUpdate now r) (tsUpdate now { r with headers := h2 }) rfl hbl
      have hhts := hts_congr (SigV4Auth._modify_request_before_signing c (tsUpdate now r))
        (SigV4Auth._modify_request_before_signing c (tsUpdate now { r with headers := h2 }))
        rfl hsm
      have hcreq := canonical_request_congr s
        (SigV4Auth._modify_request_before_signing c (tsUpdate now r))
        (SigV4Auth._modify_request_before_signing c (tsUpdate now { r with headers := h2 }))
        hk rfl rfl rfl rfl rfl hsm
      have hcso : canonicalStringOf s
            (SigV4Auth._modify_request_before_signing c (tsUpdate now r)) =
          canonicalStringOf s
            (SigV4Auth._modify_request_before_signing c (tsUpdate now { r with headers := h2 })) := by
        unfold canonicalStringOf
        rw [hcreq]
      rw [hGet_auth_of_inject s c _ _ (modify_auth_nil c _),
        hGet_auth_of_inject s c _ _ (modify_auth_nil c _), hhts, hcso]
      rfl
    · rw [hGet_auth_of_inject s c _ _ (modify_auth_nil c _)]
      exact fun hcon => Option.noConfusion hcon
  · intro q nm hmem
    exact hts_names_not_bl q nm hmem

def c8Signer : V4Signer := ⟨.v4, some ⟨"AK", "SK", Option.none⟩, "service", "us-east-1", 3600⟩

def c8Req : Request :=
  ⟨"GET", "https://h/", [("Expect", "100-continue")], [], .str "", .absent, emptyContext⟩

/-- C8 witness: a request whose only header is blacklisted signs identically to one whose
only header is a different blacklisted header. -/
theorem c8_blacklist_headers_witness :
    c8Signer.kind = V4Kind.v4 ∧ c8Signer.credentials = some ⟨"AK", "SK", Option.none⟩ ∧
    c8Req.body.noFail ∧ stripBL c8Req.headers = stripBL [("User-Agent", "agent")] ∧
    ((∃ r1' r2', SigV4Auth.add_auth c8Signer "20240101T000000Z" c8Req = SignResult.ok r1' ∧
        SigV4Auth.add_auth c8Signer "20240101T000000Z"
          { c8Req with headers := [("User-Agent", "agent")] } = SignResult.ok r2' ∧
        hGet r1'.headers "Authorization" = hGet r2'.headers "Authorization" ∧
        hGet r1'.headers "Authorization" ≠ Option.none) ∧
      (∀ (q : Request) (nm : String),
        nm ∈ (SigV4Auth.headers_to_sign q).map (fun p => p.1) →
        SIGNED_HEADERS_BLACKLIST.contains nm = false)) :=
  ⟨rfl, rfl, trivial, by decide,
   c8_blacklist_headers c8Signer ⟨"AK", "SK", Option.none⟩ "20240101T000000Z" c8Req
     [("User-Agent", "agent")] rfl rfl trivial (by decide)⟩

/-- The ordered auth parameters of the presigned-URL flow. -/
def SigV4QueryAuth.auth_params (s : V4Signer) (c : Credentials) (r : Request) :
    List (String × String) :=
  [("X-Amz-Algorithm", "AWS4-HMAC-SHA256"),
   ("X-Amz-Credential", SigV4Auth.scope c s r),
   ("X-Amz-Date", SigV4Auth.ctxTimestamp r),
   ("X-Amz-Expires", toString s.expires),
   ("X-Amz-SignedHeaders", SigV4Auth.signed_headers (SigV4Auth.headers_to_sign r))] ++
  (match c.token with | some t => [("X-Amz-Security-Token", t)] | Option.none => [])

/-- The standard SigV2 parameters injected before signing. -/
def sigv2_enrich (c : Credentials) (now : String) (base : List (String × String)) :
    List (String × String) :=
  let ps := dSet base "AWSAccessKeyId" c.access_key
  let ps := dSet ps "SignatureVersion" "2"
  let ps := dSet ps "SignatureMethod" "HmacSHA256"
  let ps := dSet ps "Timestamp" now
  match c.token with | some t => dSet ps "SecurityToken" t | Option.none => ps

/-- C9: SigV2 signs METHOD, netloc, path (slash when empty) and the key-sorted encoded
parameters with any Signature key skipped, keys quoted with no extra safe characters and
values with -_~ safe, base64 of HMAC-SHA256 under the raw secret key; but the parameter
source is chosen by data truthiness, not the HTTP method, and the Signature is stored back
into the chosen source: a truthy mapping body receives it in request.data, everything else
in request.params; a truthy text body is the type-error path. -/
theorem c9_sigv2_behavior (c : Credentials) (now : String) (r : Request) :
    (∀ ds, ds ≠ "" → r.data = ReqData.str ds →
      SigV2Auth.add_auth (some c) now r = SignResult.err SigErr.typeError r) ∧
    (∀ d, d ≠ [] → r.data = ReqData.dict d →
      SigV2Auth.add_auth (some c) now r =
        SignResult.ok { r with data := (ReqData.dict
          (dSet (sigv2_enrich c now d) "Signature"
            ((SigV2Auth.calc_signature c r (sigv2_enrich c now d)).2))) }) ∧
    ((r.data = ReqData.str "" ∨ r.data = ReqData.dict []) →
      SigV2Auth.add_auth (some c) now r =
        SignResult.ok { r with params :=
          (dSet (sigv2_enrich c now r.params) "Signature"
            ((SigV2Auth.calc_signature c r (sigv2_enrich c now r.params)).2)) }) ∧
    (∀ ps, (SigV2Auth.calc_signature c r ps).1 =
      String.intercalate "&" ((sortLe strLeB (ps.map (fun p => p.1))).filterMap
        (fun key => if key = "Signature" then Option.none
          else some (pyQuote key "" ++ "=" ++ pyQuote ((dGet ps key).getD "") "-_~")))) ∧
    (∀ ps, (SigV2Auth.calc_signature c r ps).2 =
      b64encode (hmacSha256 (utf8 c.secret_key)
        (utf8 ((r.method ++ "\n" ++ (urlsplit r.url).netloc ++ "\n" ++
          (if (urlsplit r.url).path = "" then "/" else (urlsplit r.url).path) ++ "\n") ++
          (SigV2Auth.calc_signature c r ps).1)))) := by
  refine ⟨?_, ?_, ?_, fun ps => rfl, fun ps => rfl⟩
  · intro ds hds hdata
    unfold SigV2Auth.add_auth
    rw [hdata]
    simp only []
    rw [if_pos hds]
  · intro d hd hdata
    unfold SigV2Auth.add_auth
    rw [hdata]
    simp only []
    rw [if_pos hd]
    unfold sigv2_enrich
    rfl
  · intro hcase
    unfold SigV2Auth.add_auth
    rcases hcase with hdata | hdata <;> rw [hdata] <;> simp only []
    · rw [if_neg (fun hcon => hcon rfl)]
      unfold sigv2_enrich
      rfl
    · rw [if_neg (fun hcon => hcon rfl)]
      unfold sigv2_enrich
      rfl

def c9wReq : Request :=
  ⟨"GET", "https://h/p", [], [("P", "1")], .str "", .absent, emptyContext⟩

/-- C9 witness: the empty-body case at a concrete GET request signs request.params and
stores the Signature there. -/
theorem c9_sigv2_behavior_witness :
    (c9wReq.data = ReqData.str "" ∨ c9wReq.data = ReqData.dict []) ∧
    SigV2Auth.add_auth (some ⟨"AK", "SK", Option.none⟩) "2024-01-01T00:00:00Z" c9wReq =
      SignResult.ok { c9wReq with params :=
        (dSet (sigv2_enrich ⟨"AK", "SK", Option.none⟩ "2024-01-01T00:00:00Z" c9wReq.params)
          "Signature"
          ((SigV2Auth.calc_signature ⟨"AK", "SK", Option.none⟩ c9wReq
            (sigv2_enrich ⟨"AK", "SK", Option.none⟩ "2024-01-01T00:00:00Z"
              c9wReq.params)).2)) } :=
  ⟨Or.inl rfl,
   (c9_sigv2_behavior ⟨"AK", "SK", Option.none⟩ "2024-01-01T00:00:00Z" c9wReq).2.2.1
     (Or.inl rfl)⟩

def c9Req : Request :=
  ⟨"GET", "https://h/p", [], [("P", "1")], .dict [("D", "2")], .absent, emptyContext⟩

/-- C9 counterexample: a GET request with a truthy mapping body is signed from
request.data, not request.params: the params survive unchanged and carry no Signature
key, contradicting the method-based source selection and params storage of the claim. -/
theorem c9_counterexample :
    c9Req.method = "GET" ∧ c9Req.data = ReqData.dict [("D", "2")] ∧
    (SigV2Auth.add_auth (some ⟨"AK", "SK", Option.none⟩) "2024-01-01T00:00:00Z"
      c9Req).req.params = [("P", "1")] ∧
    dContains ((SigV2Auth.add_auth (some ⟨"AK", "SK", Option.none⟩) "2024-01-01T00:00:00Z"
      c9Req).req.params) "Signature" = false := by
  decide

end AwsAuth
